import Mathlib

/-!
# go-todo-service: request gate, response listener and cache-aside handlers

A shallow embedding of

* `middleware/middleware.go` (`VerifyTokenAndInteractWithKafka`) and
  `utils/kafkaResponse.go` (`SetTokenVerificationResultChannel`,
  `TokenVerificationResponseHandler.ConsumeClaim`) as a step function on an explicit
  state: the package-level variable `tokenVerificationResultCh`, the buffered result
  channels, one record per request inside the gate, the request topic and the listener;
* `controllers/todoController.go` as functions on a world made of the relational store
  and the Redis cache.

Go strings are byte sequences and are modelled as lists of byte values.
-/

namespace TodoService

/-! ## models/models.go -/

/-- A Go string seen as its bytes. -/
abbrev Bytes := List Nat

/-- The bytes of an ASCII literal. -/
def ascii (s : String) : Bytes := s.data.map Char.toNat

/-- Go struct `models.TokenVerificationResponse`. -/
structure TokenVerificationResponse where
  Valid : Bool
  UserID : Int
  Name : Bytes
  Email : Bytes
deriving DecidableEq, Repr

/-- Go struct `models.TokenVerificationRequest`: the token is its only field. -/
structure TokenVerificationRequest where
  Token : Bytes
deriving DecidableEq, Repr

/-! ## utils/kafkaResponse.go and middleware/middleware.go -/

/-- The value of one message on the `token_verification_responses` topic: either bytes
that `json.Unmarshal` rejects, or a JSON object. The object may carry a correlation
identifier as in the specified response envelope; `models.TokenVerificationResponse`
declares no such field. -/
inductive Payload where
  | malformed
  | envelope (correlationId : Nat) (resp : TokenVerificationResponse)
deriving DecidableEq, Repr

/-- The call `json.Unmarshal(msg.Value, &response)` of `ConsumeClaim`: object members
that the target struct does not declare are dropped. -/
def Unmarshal : Payload → Option TokenVerificationResponse
  | .malformed => none
  | .envelope _ resp => some resp

/-- The literal `"Bearer "` whose length the gate slices off. -/
def bearer : Bytes := ascii "Bearer "

/-- Capacity of the channel made by `make(chan *models.TokenVerificationResponse, 1)`. -/
def resultChCap : Nat := 1

/-- Program point of one invocation of `VerifyTokenAndInteractWithKafka`. -/
inductive Pc where
  /-- the request has not reached the gate yet -/
  | idle
  /-- before `utils.SendMessageJSONToKafka` (line 41), holding the sliced token -/
  | sending (token : Bytes)
  /-- before `utils.SetTokenVerificationResultChannel(resultCh)` (line 50) -/
  | registering
  /-- inside the `select` (line 53) -/
  | waiting
  /-- the function has returned (or panicked) -/
  | returned
deriving DecidableEq, Repr

/-- One invocation of the gate: its program point, what it did to the `gin.Context`, and
three history fields (`sent`, `received`, `timedOut`) recording which way it went. -/
structure Gate where
  pc : Pc := .idle
  /-- value of `c.GetHeader("Authorization")` -/
  header : Bytes := []
  /-- status written by `c.JSON` -/
  status : Option Nat := none
  /-- `c.Abort()` was called -/
  aborted : Bool := false
  /-- `c.Next()` was called: the downstream operation ran -/
  nextRan : Bool := false
  /-- value stored by `c.Set("userID", response.UserID)` -/
  userID : Option Int := none
  /-- the slice expression on line 22 was out of range -/
  panicked : Bool := false
  /-- history: result of the publish, `some true` when it returned nil -/
  sent : Option Bool := none
  /-- history: the response taken from `resultCh` -/
  received : Option TokenVerificationResponse := none
  /-- history: the `time.After` case of the `select` was taken -/
  timedOut : Bool := false
deriving DecidableEq, Repr

/-- The goroutine running `ConsumeClaim`: between messages, or blocked in the channel
send on line 73 with the channel and the value it is sending. -/
inductive Listener where
  | idle
  | blocked (ch : Nat) (resp : TokenVerificationResponse)
deriving DecidableEq, Repr

/-- Global state. A result channel is named by the request that made it. -/
structure State where
  /-- package variable `tokenVerificationResultCh`; `none` is the nil channel -/
  tokenVerificationResultCh : Option Nat
  /-- buffer of each result channel, oldest first -/
  chans : Nat → List TokenVerificationResponse
  gates : Nat → Gate
  /-- messages on `token_verification_requests`, each with the request that sent it -/
  topic : List (Nat × TokenVerificationRequest)
  listener : Listener
  /-- number of `session.MarkMessage` calls -/
  marked : Nat

/-- State at start-up: nil channel variable, no request, nothing published. -/
def init : State where
  tokenVerificationResultCh := none
  chans := fun _ => []
  gates := fun _ => {}
  topic := []
  listener := .idle
  marked := 0

/-- Replace the record of request `r`. -/
def State.setGate (s : State) (r : Nat) (g : Gate) : State :=
  { s with gates := fun x => if x = r then g else s.gates x }

/-- Replace the buffer of channel `c`. -/
def State.setChan (s : State) (c : Nat) (buf : List TokenVerificationResponse) : State :=
  { s with chans := fun x => if x = c then buf else s.chans x }

/-- `SetTokenVerificationResultChannel(ch)`: overwrite the package variable. -/
def SetTokenVerificationResultChannel (s : State) (ch : Nat) : State :=
  { s with tokenVerificationResultCh := some ch }

/-- Atomic steps of the gate and of the listener. -/
inductive Event where
  /-- request `r` enters the gate with this `Authorization` header (lines 15-38) -/
  | request (r : Nat) (header : Bytes)
  /-- `SendMessageJSONToKafka` returns for request `r`: nil when `ok` (lines 41-47) -/
  | send (r : Nat) (ok : Bool)
  /-- request `r` executes line 50 -/
  | register (r : Nat)
  /-- the `select` of request `r` takes `case response := <-resultCh` (lines 54-63) -/
  | recv (r : Nat)
  /-- the `select` of request `r` takes `case <-time.After(...)` (lines 64-67) -/
  | timeout (r : Nat)
  /-- the listener takes the next message of `claim.Messages()` (lines 61-76) -/
  | message (p : Payload)
  /-- the listener's blocked channel send completes -/
  | resume
deriving DecidableEq, Repr

/-- Lines 15-38 of `VerifyTokenAndInteractWithKafka`: header check and slice.
`json.Marshal` of a struct holding one string cannot fail, so lines 33-38 are dead. -/
def enterGate (header : Bytes) : Gate :=
  if header = [] then
    { pc := .returned, header := header, status := some 401, aborted := true }
  else if header.length < bearer.length then
    { pc := .returned, header := header, panicked := true }
  else
    { pc := .sending (header.drop bearer.length), header := header }

/-- The body of the `ConsumeClaim` loop from the channel send on: send on the registered
channel when there is one (blocking while its buffer is full), then mark the message. -/
def deliver (s : State) (resp : TokenVerificationResponse) : State :=
  match s.tokenVerificationResultCh with
  | none => { s with marked := s.marked + 1 }
  | some c =>
    if (s.chans c).length < resultChCap then
      { s.setChan c (s.chans c ++ [resp]) with marked := s.marked + 1 }
    else
      { s with listener := .blocked c resp }

/-- The steps of `VerifyTokenAndInteractWithKafka` for one request, each atomic; `none`
when the event is not a step of the gate or is not enabled in `s`. -/
def VerifyTokenAndInteractWithKafka (s : State) : Event → Option State
  | .request r header =>
    if (s.gates r).pc = .idle then some (s.setGate r (enterGate header)) else none
  | .send r ok =>
    match (s.gates r).pc with
    | .sending token =>
      if ok then
        some { s.setGate r { s.gates r with pc := .registering, sent := some true } with
          topic := s.topic ++ [(r, { Token := token })] }
      else
        some (s.setGate r { s.gates r with
          pc := .returned, sent := some false, status := some 500, aborted := true })
    | _ => none
  | .register r =>
    if (s.gates r).pc = .registering then
      some ((SetTokenVerificationResultChannel s r).setGate r { s.gates r with pc := .waiting })
    else none
  | .recv r =>
    if (s.gates r).pc = .waiting then
      match s.chans r with
      | [] => none
      | response :: rest =>
        if response.Valid then
          some ((s.setChan r rest).setGate r { s.gates r with
            pc := .returned, received := some response,
            userID := some response.UserID, nextRan := true })
        else
          some ((s.setChan r rest).setGate r { s.gates r with
            pc := .returned, received := some response,
            status := some 401, aborted := true })
    else none
  | .timeout r =>
    if (s.gates r).pc = .waiting then
      some (s.setGate r { s.gates r with
        pc := .returned, timedOut := true, status := some 500, aborted := true })
    else none
  | .message _ => none
  | .resume => none

/-- The loop of `TokenVerificationResponseHandler.ConsumeClaim`: take the next message,
or complete the channel send it is blocked in; `none` when the event is not a step of the
listener or is not enabled in `s`. A message that fails to decode is logged and skipped. -/
def ConsumeClaim (s : State) : Event → Option State
  | .message p =>
    match s.listener with
    | .idle =>
      match Unmarshal p with
      | none => some s
      | some resp => some (deliver s resp)
    | .blocked _ _ => none
  | .resume =>
    match s.listener with
    | .idle => none
    | .blocked c resp =>
      if (s.chans c).length < resultChCap then
        some { s.setChan c (s.chans c ++ [resp]) with listener := .idle, marked := s.marked + 1 }
      else none
  | _ => none

/-- One atomic step of the system; `none` when the event is not enabled in `s`. -/
def step (s : State) : Event → Option State
  | .message p => ConsumeClaim s (.message p)
  | .resume => ConsumeClaim s .resume
  | e => VerifyTokenAndInteractWithKafka s e

/-- Run a schedule; `none` when some event of it is not enabled. -/
def run (s : State) : List Event → Option State
  | [] => some s
  | e :: es => (step s e).bind fun s' => run s' es

/-! ## controllers/todoController.go

The store is the relational database behind `db`, the cache is the Redis instance behind
`rdb`. Both are reached through calls that may fail: `dbFaults` and `rdbFaults` script
the outcome of the upcoming calls (`true`: the call returns an error and has no effect;
an exhausted script means success). Expiry of cache entries is not modelled: an entry
stays until it is overwritten or deleted. A path parameter `id` is taken to be the
decimal form of a number. -/

/-- Go struct `models.ToDo`, also a row of table `to_dos`. -/
structure ToDo where
  ID : Nat
  Title : Bytes
  Status : Bytes
  GroupID : Nat
  CreatedAt : Nat
deriving DecidableEq, Repr

/-- Go struct `models.Group`; `ToDos` is the association filled by `Preload("ToDos")`. -/
structure Group where
  ID : Nat
  Name : Bytes
  ToDos : List ToDo
  CreatedAt : Nat
deriving DecidableEq, Repr

/-- A row of table `groups`: the columns of `models.Group`. -/
structure GroupRow where
  ID : Nat
  Name : Bytes
  CreatedAt : Nat
deriving DecidableEq, Repr

/-- The relational store: both tables, in order of retrieval. -/
structure Store where
  groups : List GroupRow
  todos : List ToDo
deriving DecidableEq, Repr

/-- Primary keys as the database assigns them: unique within a table and never zero. -/
structure Store.Keyed (db : Store) : Prop where
  groupsNodup : (db.groups.map GroupRow.ID).Nodup
  todosNodup : (db.todos.map ToDo.ID).Nodup
  groupsPos : ∀ g ∈ db.groups, g.ID ≠ 0
  todosPos : ∀ t ∈ db.todos, t.ID ≠ 0

/-- Cache keys: `"groups:all"`, `"todos:all"`, `"group:"+id`, `"todo:"+id`. -/
inductive Key where
  | groupsAll
  | todosAll
  | group (id : Nat)
  | todo (id : Nat)
deriving DecidableEq, Repr

/-- Everything a handler can touch. -/
structure World where
  db : Store
  rdb : Key → Option Bytes
  /-- outcome of the upcoming store calls, `true` for a failing one -/
  dbFaults : List Bool
  /-- outcome of the upcoming cache calls, `true` for a failing one -/
  rdbFaults : List Bool
  /-- number of store calls issued so far -/
  dbCalls : Nat

/-- Errors of a store call: `gorm.ErrRecordNotFound` or anything else. -/
inductive DbErr where
  | recordNotFound
  | other
deriving DecidableEq, Repr

/-- Result of `rdb.Get(ctx, key).Result()`: a value, `redis.Nil`, or another error. -/
inductive GetResult where
  | val (result : Bytes)
  | redisNil
  | err
deriving DecidableEq, Repr

/-- The functions of `encoding/json` the handlers use on the cached types. The library is
outside the repository and is a parameter of every cached read. `json.Unmarshal` writes
into the value it is given and may have set some of its fields by the time it reports an
error: `groupAfterError` and `todoAfterError` give the value a failed call leaves in a
variable that was zero before the call. They are read only where `unmarshalGroup` and
`unmarshalToDo` return `none`. -/
structure Codec where
  marshalGroups : List Group → Option Bytes
  unmarshalGroups : Bytes → Option (List Group)
  marshalGroup : Group → Option Bytes
  unmarshalGroup : Bytes → Option Group
  groupAfterError : Bytes → Group
  marshalToDos : List ToDo → Option Bytes
  unmarshalToDos : Bytes → Option (List ToDo)
  marshalToDo : ToDo → Option Bytes
  unmarshalToDo : Bytes → Option ToDo
  todoAfterError : Bytes → ToDo

/-- What `c.JSON` is given as body. The text of the backend error that the handlers append
to `Redis error: ` is left out. -/
inductive Body where
  | groups (gs : List Group)
  | group (g : Group)
  | todos (ts : List ToDo)
  | todo (t : ToDo)
  | error (msg : String)
  | message (msg : String)
deriving DecidableEq, Repr

/-- The response written by `c.JSON(status, body)`. -/
structure Response where
  status : Nat
  body : Body
deriving DecidableEq, Repr

/-- Start a store call: count it and take its scripted outcome. -/
def World.dbCall (w : World) : Bool × World :=
  (w.dbFaults.headD false,
    { w with dbFaults := w.dbFaults.tail, dbCalls := w.dbCalls + 1 })

/-- Start a cache call: take its scripted outcome. -/
def World.rdbCall (w : World) : Bool × World :=
  (w.rdbFaults.headD false, { w with rdbFaults := w.rdbFaults.tail })

/-- The call `rdb.Get(ctx, key).Result()`. -/
def rdbGet (key : Key) (w : World) : GetResult × World :=
  match w.rdbCall with
  | (true, w1) => (.err, w1)
  | (false, w1) =>
    match w1.rdb key with
    | some result => (.val result, w1)
    | none => (.redisNil, w1)

/-- The call `rdb.Set(ctx, key, data, ttl).Err()`; the result is `true` for an error. -/
def rdbSet (key : Key) (data : Bytes) (w : World) : Bool × World :=
  match w.rdbCall with
  | (true, w1) => (true, w1)
  | (false, w1) => (false, { w1 with rdb := fun k => if k = key then some data else w1.rdb k })

/-- The call `rdb.Del(ctx, key)`; every caller drops its result. -/
def rdbDel (key : Key) (w : World) : World :=
  match w.rdbCall with
  | (true, w1) => w1
  | (false, w1) => { w1 with rdb := fun k => if k = key then none else w1.rdb k }

/-- A group row with its association loaded, as `Preload("ToDos")` does. -/
def Store.preload (db : Store) (g : GroupRow) : Group :=
  { ID := g.ID, Name := g.Name, CreatedAt := g.CreatedAt,
    ToDos := db.todos.filter fun t => t.GroupID = g.ID }

/-- The query `db.Preload("ToDos").Find(&groups)`. -/
def dbFindGroups (w : World) : Except DbErr (List Group) × World :=
  match w.dbCall with
  | (true, w1) => (.error .other, w1)
  | (false, w1) => (.ok (w1.db.groups.map w1.db.preload), w1)

/-- The query `db.Preload("ToDos").Where("id = ?", id).First(&group)` on a `group` that
is still the zero value. -/
def dbFirstGroup (id : Nat) (w : World) : Except DbErr Group × World :=
  match w.dbCall with
  | (true, w1) => (.error .other, w1)
  | (false, w1) =>
    match w1.db.groups.find? fun g => g.ID = id with
    | some g => (.ok (w1.db.preload g), w1)
    | none => (.error .recordNotFound, w1)

/-- The declaration `var group models.Group`: the zero value. -/
def Group.zero : Group := { ID := 0, Name := [], ToDos := [], CreatedAt := 0 }

/-- The declaration `var todo models.ToDo`: the zero value. -/
def ToDo.zero : ToDo := { ID := 0, Title := [], Status := [], GroupID := 0, CreatedAt := 0 }

/-- The query `db.Preload("ToDos").First(&group, id)` on a variable `group` that may already
hold values. gorm builds the condition from `id` and, when the primary key of `group` is
not blank (zero), from that key as well: the row must carry both. A row that is found
overwrites every column of `group`, and the preloaded items replace `group.ToDos`, so
nothing of the earlier value is left in the result. -/
def dbFirstGroupInto (group : Group) (id : Nat) (w : World) : Except DbErr Group × World :=
  match w.dbCall with
  | (true, w1) => (.error .other, w1)
  | (false, w1) =>
    match w1.db.groups.find? fun g => g.ID = id ∧ (group.ID = 0 ∨ g.ID = group.ID) with
    | some g => (.ok (w1.db.preload g), w1)
    | none => (.error .recordNotFound, w1)

/-- The query `db.Find(&todos)`. -/
def dbFindToDos (w : World) : Except DbErr (List ToDo) × World :=
  match w.dbCall with
  | (true, w1) => (.error .other, w1)
  | (false, w1) => (.ok w1.db.todos, w1)

/-- The query `db.Where("id = ?", id).First(&todo)` on a `todo` that is still the zero
value. -/
def dbFirstToDo (id : Nat) (w : World) : Except DbErr ToDo × World :=
  match w.dbCall with
  | (true, w1) => (.error .other, w1)
  | (false, w1) =>
    match w1.db.todos.find? fun t => t.ID = id with
    | some t => (.ok t, w1)
    | none => (.error .recordNotFound, w1)

/-- The query `db.First(&todo, id)` on a variable `todo` that may already hold values. gorm
builds the condition from `id` and, when the primary key of `todo` is not blank (zero),
from that key as well: the row must carry both. A row that is found overwrites every
column of `todo`. -/
def dbFirstToDoInto (todo : ToDo) (id : Nat) (w : World) : Except DbErr ToDo × World :=
  match w.dbCall with
  | (true, w1) => (.error .other, w1)
  | (false, w1) =>
    match w1.db.todos.find? fun t => t.ID = id ∧ (todo.ID = 0 ∨ t.ID = todo.ID) with
    | some t => (.ok t, w1)
    | none => (.error .recordNotFound, w1)

/-- The call `db.Delete(&todo)`: gorm deletes by the primary key of the value, and
deletes every row of the table when that key is blank (zero). Callers drop the result. -/
def dbDeleteToDo (todo : ToDo) (w : World) : World :=
  match w.dbCall with
  | (true, w1) => w1
  | (false, w1) =>
    if todo.ID = 0 then { w1 with db := { w1.db with todos := [] } }
    else { w1 with db := { w1.db with todos := w1.db.todos.filter fun t => ¬ t.ID = todo.ID } }

/-- The call `db.Delete(&group)`: gorm deletes by the primary key of the value, and
deletes every row of the table when that key is blank (zero). Callers drop the result. -/
def dbDeleteGroup (group : Group) (w : World) : World :=
  match w.dbCall with
  | (true, w1) => w1
  | (false, w1) =>
    if group.ID = 0 then { w1 with db := { w1.db with groups := [] } }
    else
      { w1 with db := { w1.db with groups := w1.db.groups.filter fun g => ¬ g.ID = group.ID } }

/-- Handler `GetGroups`. -/
def GetGroups (J : Codec) (w : World) : Response × World :=
  match rdbGet .groupsAll w with
  | (.redisNil, w1) =>
    match dbFindGroups w1 with
    | (.error _, w2) => (⟨500, .error "Failed to retrieve groups"⟩, w2)
    | (.ok groups, w2) =>
      match J.marshalGroups groups with
      | none => (⟨500, .error "Failed to marshal groups"⟩, w2)
      | some data => (⟨200, .groups groups⟩, (rdbSet .groupsAll data w2).2)
  | (.err, w1) => (⟨500, .error "Redis error"⟩, w1)
  | (.val result, w1) =>
    match J.unmarshalGroups result with
    | none => (⟨500, .error "Failed to unmarshal groups"⟩, w1)
    | some groups => (⟨200, .groups groups⟩, w1)

/-- Lines 177-193 of `GetGroup`: query the store and cache the group. `group` is the
variable of that name as it stands when line 178 is reached. -/
def GetGroupFromStore (J : Codec) (group : Group) (id : Nat) (w : World) :
    Response × World :=
  match dbFirstGroupInto group id w with
  | (.error .recordNotFound, w1) => (⟨404, .error "Group not found"⟩, w1)
  | (.error .other, w1) => (⟨500, .error "Failed to retrieve group"⟩, w1)
  | (.ok group, w1) =>
    match J.marshalGroup group with
    | some groupJSON => (⟨200, .group group⟩, (rdbSet (.group id) groupJSON w1).2)
    | none => (⟨200, .group group⟩, w1)

/-- Handler `GetGroup`. The variable `group` is zero on a miss; after a failed
`json.Unmarshal` it holds what the decoder left in it, and the same variable is the
destination of the store query. -/
def GetGroup (J : Codec) (id : Nat) (w : World) : Response × World :=
  match rdbGet (.group id) w with
  | (.val result, w1) =>
    match J.unmarshalGroup result with
    | some group => (⟨200, .group group⟩, w1)
    | none => GetGroupFromStore J (J.groupAfterError result) id w1
  | (.err, w1) => (⟨500, .error "Redis error"⟩, w1)
  | (.redisNil, w1) => GetGroupFromStore J Group.zero id w1

/-- Handler `GetToDos`. -/
def GetToDos (J : Codec) (w : World) : Response × World :=
  match rdbGet .todosAll w with
  | (.redisNil, w1) =>
    match dbFindToDos w1 with
    | (.error _, w2) => (⟨500, .error "Failed to retrieve todos"⟩, w2)
    | (.ok todos, w2) =>
      match J.marshalToDos todos with
      | none => (⟨500, .error "Failed to marshal todos"⟩, w2)
      | some data =>
        match rdbSet .todosAll data w2 with
        | (true, w3) => (⟨500, .error "Failed to cache todos"⟩, w3)
        | (false, w3) => (⟨200, .todos todos⟩, w3)
  | (.err, w1) => (⟨500, .error "Redis error"⟩, w1)
  | (.val result, w1) =>
    match J.unmarshalToDos result with
    | none => (⟨500, .error "Failed to unmarshal todos"⟩, w1)
    | some todos => (⟨200, .todos todos⟩, w1)

/-- Lines 383-398 of `GetToDosById`: query the store and cache the item. `todo` is the
variable of that name as it stands when line 384 is reached. -/
def GetToDosByIdFromStore (J : Codec) (todo : ToDo) (id : Nat) (w : World) :
    Response × World :=
  match dbFirstToDoInto todo id w with
  | (.error _, w1) => (⟨404, .error "ToDo not found"⟩, w1)
  | (.ok todo, w1) =>
    match J.marshalToDo todo with
    | some todoJSON =>
      match rdbSet (.todo id) todoJSON w1 with
      | (true, w2) => (⟨500, .error "Failed to cache todo"⟩, w2)
      | (false, w2) => (⟨200, .todo todo⟩, w2)
    | none => (⟨200, .todo todo⟩, w1)

/-- Handler `GetToDosById`. The variable `todo` is zero on a miss; after a failed
`json.Unmarshal` it holds what the decoder left in it, and the same variable is the
destination of the store query. -/
def GetToDosById (J : Codec) (id : Nat) (w : World) : Response × World :=
  match rdbGet (.todo id) w with
  | (.val result, w1) =>
    match J.unmarshalToDo result with
    | some todo => (⟨200, .todo todo⟩, w1)
    | none => GetToDosByIdFromStore J (J.todoAfterError result) id w1
  | (.err, w1) => (⟨500, .error "Redis error"⟩, w1)
  | (.redisNil, w1) => GetToDosByIdFromStore J ToDo.zero id w1

/-- Handler `DeleteGroup`. -/
def DeleteGroup (id : Nat) (w : World) : Response × World :=
  match dbFirstGroup id w with
  | (.error _, w1) => (⟨404, .error "Group not found"⟩, w1)
  | (.ok group, w1) =>
    let w2 := group.ToDos.foldl (fun w todo => dbDeleteToDo todo w) w1
    let w3 := dbDeleteGroup group w2
    let w4 := rdbDel .groupsAll w3
    let w5 := rdbDel .todosAll w4
    (⟨200, .message "Group and associated ToDos deleted"⟩, w5)

/-- Handler `DeleteToDo`. -/
def DeleteToDo (id : Nat) (w : World) : Response × World :=
  match dbFirstToDo id w with
  | (.error _, w1) => (⟨404, .error "ToDo not found"⟩, w1)
  | (.ok todo, w1) =>
    let w2 := dbDeleteToDo todo w1
    let w3 := rdbDel .todosAll w2
    (⟨200, .message "ToDo deleted"⟩, w3)

/-! ### A stand-in for `encoding/json`

A length-prefixed encoding, used where a statement needs a concrete codec. -/

/-- Encoding of one item. -/
def wireToDo (t : ToDo) : Bytes :=
  [t.ID, t.GroupID, t.CreatedAt, t.Title.length] ++ t.Title ++ t.Status

/-- Decoding of one item. -/
def unwireToDo : Bytes → Option ToDo
  | id :: gid :: created :: n :: rest =>
    if n ≤ rest.length then
      some { ID := id, GroupID := gid, CreatedAt := created,
             Title := rest.take n, Status := rest.drop n }
    else none
  | _ => none

/-- What a failed decoding of one item leaves in a zero value: the numbers read before the
input ran out, as `json.Unmarshal` keeps the fields it decoded before an error. -/
def unwireToDoAfterError (b : Bytes) : ToDo :=
  { ToDo.zero with
    ID := b.headD 0, GroupID := (b.drop 1).headD 0, CreatedAt := (b.drop 2).headD 0 }

/-- Encoding of a list of items: each one behind its length. -/
def wireToDos : List ToDo → Bytes
  | [] => []
  | t :: ts => (wireToDo t).length :: (wireToDo t ++ wireToDos ts)

/-- Decoding of a list of items, at most `fuel` of them. -/
def unwireToDos : Nat → Bytes → Option (List ToDo)
  | _, [] => some []
  | 0, _ :: _ => none
  | fuel + 1, n :: rest =>
    if n ≤ rest.length then
      match unwireToDo (rest.take n), unwireToDos fuel (rest.drop n) with
      | some t, some ts => some (t :: ts)
      | _, _ => none
    else none

/-- Encoding of one group. -/
def wireGroup (g : Group) : Bytes :=
  [g.ID, g.CreatedAt, g.Name.length] ++ g.Name ++ wireToDos g.ToDos

/-- Decoding of one group. -/
def unwireGroup : Bytes → Option Group
  | id :: created :: n :: rest =>
    if n ≤ rest.length then
      match unwireToDos (rest.drop n).length (rest.drop n) with
      | some ts => some { ID := id, CreatedAt := created, Name := rest.take n, ToDos := ts }
      | none => none
    else none
  | _ => none

/-- What a failed decoding of one group leaves in a zero value: the numbers read before
the error. -/
def unwireGroupAfterError (b : Bytes) : Group :=
  { Group.zero with ID := b.headD 0, CreatedAt := (b.drop 1).headD 0 }

/-- Encoding of a list of groups: each one behind its length. -/
def wireGroups : List Group → Bytes
  | [] => []
  | g :: gs => (wireGroup g).length :: (wireGroup g ++ wireGroups gs)

/-- Decoding of a list of groups, at most `fuel` of them. -/
def unwireGroups : Nat → Bytes → Option (List Group)
  | _, [] => some []
  | 0, _ :: _ => none
  | fuel + 1, n :: rest =>
    if n ≤ rest.length then
      match unwireGroup (rest.take n), unwireGroups fuel (rest.drop n) with
      | some g, some gs => some (g :: gs)
      | _, _ => none
    else none

/-- The stand-in codec. -/
def wire : Codec where
  marshalGroups := fun gs => some (wireGroups gs)
  unmarshalGroups := fun b => unwireGroups b.length b
  marshalGroup := fun g => some (wireGroup g)
  unmarshalGroup := unwireGroup
  groupAfterError := unwireGroupAfterError
  marshalToDos := fun ts => some (wireToDos ts)
  unmarshalToDos := fun b => unwireToDos b.length b
  marshalToDo := fun t => some (wireToDo t)
  unmarshalToDo := unwireToDo
  todoAfterError := unwireToDoAfterError

/-! ## Invariants of the gate and listener -/

/-- Shape of a gate record at each program point. -/
def Gate.Inv (g : Gate) : Prop :=
  match g.pc with
  | .idle => g = {}
  | .sending token =>
    g = { pc := .sending token, header := g.header } ∧
      bearer.length ≤ g.header.length ∧ token = g.header.drop bearer.length
  | .registering =>
    g = { pc := .registering, header := g.header, sent := some true } ∧
      bearer.length ≤ g.header.length
  | .waiting =>
    g = { pc := .waiting, header := g.header, sent := some true } ∧
      bearer.length ≤ g.header.length
  | .returned =>
    g = { pc := .returned, header := [], status := some 401, aborted := true } ∨
    (g = { pc := .returned, header := g.header, panicked := true } ∧
      g.header ≠ [] ∧ g.header.length < bearer.length) ∨
    (g = { pc := .returned, header := g.header, sent := some false,
           status := some 500, aborted := true } ∧ bearer.length ≤ g.header.length) ∨
    (∃ resp : TokenVerificationResponse, resp.Valid = true ∧
      g = { pc := .returned, header := g.header, sent := some true, received := some resp,
            userID := some resp.UserID, nextRan := true } ∧
      bearer.length ≤ g.header.length) ∨
    (∃ resp : TokenVerificationResponse, resp.Valid = false ∧
      g = { pc := .returned, header := g.header, sent := some true, received := some resp,
            status := some 401, aborted := true } ∧
      bearer.length ≤ g.header.length) ∨
    (g = { pc := .returned, header := g.header, sent := some true, timedOut := true,
           status := some 500, aborted := true } ∧ bearer.length ≤ g.header.length)

/-- Invariant of the reachable states. -/
structure State.Inv (s : State) : Prop where
  gates : ∀ r, (s.gates r).Inv
  registered : ∀ c, s.tokenVerificationResultCh = some c → (s.gates c).sent = some true
  topic : ∀ m ∈ s.topic,
    (s.gates m.1).sent = some true ∧ m.2.Token = (s.gates m.1).header.drop bearer.length

/-- Decoding inverts encoding, for each of the four cached types. -/
structure Codec.Inverts (J : Codec) : Prop where
  groups : ∀ gs, ∃ b, J.marshalGroups gs = some b ∧ J.unmarshalGroups b = some gs
  group : ∀ g, ∃ b, J.marshalGroup g = some b ∧ J.unmarshalGroup b = some g
  todos : ∀ ts, ∃ b, J.marshalToDos ts = some b ∧ J.unmarshalToDos b = some ts
  todo : ∀ t, ∃ b, J.marshalToDo t = some b ∧ J.unmarshalToDo b = some t

/-! ## controllers/todoController.go: the writing handlers and `GetToDosByDate`

`now` is the reading of `time.Now()` in the `BeforeCreate` hooks and `seq` the value the
table's id sequence hands out for a blank primary key. The text of a binding error is left
out of the 400 responses. A scripted fault of a writing call stands for any failure of its
statements, the saving of associations in the same transaction included. -/

/-- The part of gorm's `Create` that saves the has-many association `ToDos` of a new group:
from the new group's id, the items of the payload and the table `to_dos` to the items as
saved and the table afterwards. The library is outside the repository. -/
structure Gorm where
  saveToDos : Nat → List ToDo → List ToDo → List ToDo × List ToDo

/-- A JSON body bound onto an existing `models.ToDo`: members that are absent leave the
field as it is. -/
structure ToDoPatch where
  id : Option Nat
  title : Option Bytes
  status : Option Bytes
  group_id : Option Nat
  created_at : Option Nat
deriving DecidableEq, Repr

/-- The effect of `c.ShouldBindJSON(&todo)` on a loaded item. -/
def ToDoPatch.bind (p : ToDoPatch) (t : ToDo) : ToDo :=
  { ID := p.id.getD t.ID, Title := p.title.getD t.Title, Status := p.status.getD t.Status,
    GroupID := p.group_id.getD t.GroupID, CreatedAt := p.created_at.getD t.CreatedAt }

/-- A group row as a `models.Group` without its association loaded. -/
def GroupRow.toGroup (g : GroupRow) : Group :=
  { ID := g.ID, Name := g.Name, ToDos := [], CreatedAt := g.CreatedAt }

/-- The queries `db.First(&group, id)` and `db.Where("id = ?", id).First(&group)`. -/
def dbFirstGroupRow (id : Nat) (w : World) : Except DbErr Group × World :=
  match w.dbCall with
  | (true, w1) => (.error .other, w1)
  | (false, w1) =>
    match w1.db.groups.find? fun g => g.ID = id with
    | some g => (.ok g.toGroup, w1)
    | none => (.error .recordNotFound, w1)

/-- The query `db.Where("name = ?", group.Name).First(&existingGroup)`. -/
def dbFirstGroupByName (name : Bytes) (w : World) : Except DbErr Group × World :=
  match w.dbCall with
  | (true, w1) => (.error .other, w1)
  | (false, w1) =>
    match w1.db.groups.find? fun g => g.Name = name with
    | some g => (.ok g.toGroup, w1)
    | none => (.error .recordNotFound, w1)

/-- The call `db.Create(&group)`: the hook stamps `CreatedAt`, a blank key is taken from the
sequence, the insert is rejected when the key is taken, and the associated items are saved.
The first component is `true` when the call reports an error; `CreateGroup` drops it. -/
def dbCreateGroup (A : Gorm) (now seq : Nat) (group : Group) (w : World) :
    Bool × Group × World :=
  match w.dbCall with
  | (true, w1) => (true, { group with CreatedAt := now }, w1)
  | (false, w1) =>
    if (if group.ID = 0 then seq else group.ID) ∈ w1.db.groups.map GroupRow.ID then
      (true, { group with CreatedAt := now }, w1)
    else
      (false,
        { ID := if group.ID = 0 then seq else group.ID, Name := group.Name, CreatedAt := now,
          ToDos := (A.saveToDos (if group.ID = 0 then seq else group.ID) group.ToDos
            w1.db.todos).1 },
        { w1 with db :=
          { groups := w1.db.groups ++
              [{ ID := if group.ID = 0 then seq else group.ID, Name := group.Name,
                 CreatedAt := now }],
            todos := (A.saveToDos (if group.ID = 0 then seq else group.ID) group.ToDos
              w1.db.todos).2 } })

/-- The call `db.Model(&group).Update("name", name)`: gorm updates by the primary key of
the value, and every row of the table when that key is blank (zero). The first component
is `true` when the call reports an error. -/
def dbUpdateGroupName (group : Group) (name : Bytes) (w : World) : Bool × Group × World :=
  match w.dbCall with
  | (true, w1) => (true, group, w1)
  | (false, w1) =>
    (false, { group with Name := name },
      { w1 with db := { w1.db with groups := w1.db.groups.map fun g =>
          if group.ID = 0 ∨ g.ID = group.ID then { g with Name := name } else g } })

/-- The call `db.Create(&todo)`: the hook stamps `CreatedAt`, a blank key is taken from the
sequence, and the insert is rejected when the key is taken. The first component is `true`
when the call reports an error; `CreateToDo` drops it. -/
def dbCreateToDo (now seq : Nat) (todo : ToDo) (w : World) : Bool × ToDo × World :=
  match w.dbCall with
  | (true, w1) => (true, { todo with CreatedAt := now }, w1)
  | (false, w1) =>
    if (if todo.ID = 0 then seq else todo.ID) ∈ w1.db.todos.map ToDo.ID then
      (true, { todo with CreatedAt := now }, w1)
    else
      (false, { todo with ID := if todo.ID = 0 then seq else todo.ID, CreatedAt := now },
        { w1 with db := { w1.db with todos := w1.db.todos ++
            [{ todo with ID := if todo.ID = 0 then seq else todo.ID, CreatedAt := now }] } })

/-- The call `db.Save(&todo)`: with a blank key it is `db.Create`; otherwise it updates the
row of that key (keeping the stored `created_at` when the value's is blank), and creates
the row when there is none. The first component is `true` when the call reports an error;
`UpdateToDo` drops it. -/
def dbSaveToDo (now seq : Nat) (todo : ToDo) (w : World) : Bool × ToDo × World :=
  if todo.ID = 0 then dbCreateToDo now seq todo w
  else
    match w.dbCall with
    | (true, w1) => (true, todo, w1)
    | (false, w1) =>
      if todo.ID ∈ w1.db.todos.map ToDo.ID then
        (false, todo,
          { w1 with db := { w1.db with todos := w1.db.todos.map fun t =>
              if t.ID = todo.ID then
                { todo with CreatedAt := if todo.CreatedAt = 0 then t.CreatedAt
                                         else todo.CreatedAt }
              else t } })
      else
        (false, { todo with CreatedAt := now },
          { w1 with db := { w1.db with
              todos := w1.db.todos ++ [{ todo with CreatedAt := now }] } })

/-- The query `db.Where("date(due_date) = ?", date).Find(&todos)`. `models.ToDo` declares
no due date, so the table `to_dos` has no column `due_date` and the statement is always
rejected. -/
def dbFindToDosByDate (_date : Bytes) (w : World) : Except DbErr (List ToDo) × World :=
  (.error .other, w.dbCall.2)

/-- Handler `CreateGroup`; `body` is the bound `models.Group`, `none` when binding fails. -/
def CreateGroup (A : Gorm) (now seq : Nat) (body : Option Group) (w : World) :
    Response × World :=
  match body with
  | none => (⟨400, .error "Bad Request"⟩, w)
  | some group =>
    match dbFirstGroupByName group.Name w with
    | (.ok _, w1) => (⟨409, .error "Group with this name already exists"⟩, w1)
    | (.error .recordNotFound, w1) =>
      (⟨201, .group (dbCreateGroup A now seq group w1).2.1⟩,
        rdbDel .groupsAll (dbCreateGroup A now seq group w1).2.2)
    | (.error .other, w1) => (⟨500, .error "Database error"⟩, w1)

/-- Handler `UpdateGroup`; `body` is the bound name, `none` when binding fails (the member
`name` is required). -/
def UpdateGroup (id : Nat) (body : Option Bytes) (w : World) : Response × World :=
  match body with
  | none => (⟨400, .error "Bad Request"⟩, w)
  | some name =>
    match dbFirstGroupRow id w with
    | (.error _, w1) => (⟨404, .error "Group not found"⟩, w1)
    | (.ok group, w1) =>
      match dbUpdateGroupName group name w1 with
      | (true, _, w2) => (⟨500, .error "Failed to update group"⟩, w2)
      | (false, group1, w2) => (⟨200, .group group1⟩, rdbDel .groupsAll w2)

/-- Handler `GetToDosByDate`: the result of the query is not inspected. -/
def GetToDosByDate (date : Bytes) (w : World) : Response × World :=
  match dbFindToDosByDate date w with
  | (.ok todos, w1) => (⟨200, .todos todos⟩, w1)
  | (.error _, w1) => (⟨200, .todos []⟩, w1)

/-- Handler `CreateToDo`; `body` is the bound `models.ToDo`, `none` when binding fails. -/
def CreateToDo (now seq : Nat) (body : Option ToDo) (w : World) : Response × World :=
  match body with
  | none => (⟨400, .error "Bad Request"⟩, w)
  | some todo =>
    match dbFirstGroupRow todo.GroupID w with
    | (.error _, w1) => (⟨400, .error "GroupID does not exist"⟩, w1)
    | (.ok _, w1) =>
      (⟨201, .todo (dbCreateToDo now seq todo w1).2.1⟩,
        rdbDel .todosAll (dbCreateToDo now seq todo w1).2.2)

/-- Handler `UpdateToDo`; `body` is the JSON body, `none` when binding fails. -/
def UpdateToDo (now seq : Nat) (id : Nat) (body : Option ToDoPatch) (w : World) :
    Response × World :=
  match dbFirstToDo id w with
  | (.error _, w1) => (⟨404, .error "ToDo not found"⟩, w1)
  | (.ok todo, w1) =>
    match body with
    | none => (⟨400, .error "Bad Request"⟩, w1)
    | some patch =>
      (⟨200, .todo (dbSaveToDo now seq (patch.bind todo) w1).2.1⟩,
        rdbDel .todosAll (dbSaveToDo now seq (patch.bind todo) w1).2.2)

/-- A sequence of `CreateGroup` calls, one after the other. -/
def createGroups (A : Gorm) : List (Nat × Nat × Option Group) → World → World
  | [], w => w
  | (now, seq, body) :: calls, w => createGroups A calls (CreateGroup A now seq body w).2

/-- Every group of the store has another name. -/
def Store.NamesDistinct (db : Store) : Prop := (db.groups.map GroupRow.Name).Nodup

/-- The names of finitely many groups can be compared. -/
instance Store.decNamesDistinct (db : Store) : Decidable db.NamesDistinct := by
  unfold Store.NamesDistinct
  infer_instance

/-! ## Scenarios -/

/-- A header in the expected form. -/
def goodHeader : Bytes := ascii "Bearer abc"

/-- A header that is not in the form `Bearer <token>`. -/
def basicHeader : Bytes := ascii "Basic dXNlcjpwYXNz"

/-- A response vouching for user 101. -/
def okResponse : TokenVerificationResponse :=
  { Valid := true, UserID := 101, Name := [], Email := [] }

/-- One request, verified in time. -/
def validSchedule : List Event :=
  [.request 1 goodHeader, .send 1 true, .register 1, .message (.envelope 1 okResponse), .recv 1]

/-- A second request, with another token. -/
def otherHeader : Bytes := ascii "Bearer bad"

/-- A request with a header that is not in the form `Bearer <token>`, published. -/
def basicSchedule : List Event := [.request 1 basicHeader, .send 1 true]

/-- A request with no `Authorization` header, after another request was published. -/
def absentSchedule : List Event := [.request 1 goodHeader, .send 1 true, .request 2 []]

/-- Two requests in flight, one response, for the first of them. -/
def crossSchedule : List Event :=
  [.request 1 goodHeader, .request 2 otherHeader, .send 1 true, .send 2 true,
   .register 1, .register 2, .message (.envelope 1 okResponse), .recv 2]

/-- One request waiting with its channel registered. -/
def waitingSchedule : List Event := [.request 1 goodHeader, .send 1 true, .register 1]

/-- The state reached by `waitingSchedule`. -/
def waitingState : State := (run init waitingSchedule).getD init

/-- Request 1 times out, request 2 registers, then the response for request 1 arrives. -/
def lateSchedule : List Event :=
  [.request 1 goodHeader, .send 1 true, .register 1, .timeout 1,
   .request 2 otherHeader, .send 2 true, .register 2,
   .message (.envelope 1 okResponse), .recv 2]

/-- Request 1 times out, then its response arrives twice. -/
def stuckSchedule : List Event :=
  [.request 1 goodHeader, .send 1 true, .register 1, .timeout 1,
   .message (.envelope 1 okResponse), .message (.envelope 1 okResponse)]

/-- One request that timed out. -/
def timeoutSchedule : List Event :=
  [.request 1 goodHeader, .send 1 true, .register 1, .timeout 1]

/-- The state reached by `timeoutSchedule`. -/
def timedOutState : State := (run init timeoutSchedule).getD init

/-- One request whose publish failed. -/
def failedSchedule : List Event := [.request 1 goodHeader, .send 1 false]

/-- An item of group 1. -/
def milk : ToDo :=
  { ID := 1, Title := ascii "buy milk", Status := ascii "open", GroupID := 1, CreatedAt := 10 }

/-- An item of group 2. -/
def report : ToDo :=
  { ID := 2, Title := ascii "report", Status := ascii "done", GroupID := 2, CreatedAt := 11 }

/-- Group 1. -/
def home : GroupRow := { ID := 1, Name := ascii "home", CreatedAt := 5 }

/-- Group 2. -/
def work : GroupRow := { ID := 2, Name := ascii "work", CreatedAt := 6 }

/-- Two groups with one item each, an empty cache, working backends. -/
def homeWorld : World :=
  { db := { groups := [home, work], todos := [milk, report] }, rdb := fun _ => none,
    dbFaults := [], rdbFaults := [], dbCalls := 0 }

/-- The same store behind a cache whose every entry fails to decode. -/
def garbledWorld : World := { homeWorld with rdb := fun _ => some [5] }

/-- The same store behind a cache whose every entry breaks off after the number 1. -/
def cutOffWorld : World := { homeWorld with rdb := fun _ => some [1] }

/-- The same store behind a cache whose next call fails. -/
def brokenCacheWorld : World := { homeWorld with rdbFaults := [true] }

/-- An instance of `Gorm` that leaves the payload's items and the table as they are. -/
def plainGorm : Gorm := ⟨fun _ items table => (items, table)⟩

/-- A payload for a new group with a blank key. -/
def garden : Group := { ID := 0, Name := ascii "garden", ToDos := [], CreatedAt := 0 }

/-- A payload for a new group whose key is the key of group 1. -/
def gardenAsOne : Group := { ID := 1, Name := ascii "garden", ToDos := [], CreatedAt := 0 }

/-- A payload for a new item of group 2. -/
def errand : ToDo :=
  { ID := 0, Title := ascii "errand", Status := ascii "open", GroupID := 2, CreatedAt := 0 }

/-- A payload for a new item of a group that does not exist. -/
def orphan : ToDo :=
  { ID := 0, Title := ascii "orphan", Status := ascii "open", GroupID := 7, CreatedAt := 0 }

/-- A body that changes the title only. -/
def retitle : ToDoPatch :=
  { id := none, title := some (ascii "buy tea"), status := none, group_id := none,
    created_at := none }

/-- The store of `homeWorld` when its next call fails. -/
def faultyStoreWorld : World := { homeWorld with dbFaults := [true] }

/-- The store of `homeWorld` when its first call succeeds and the later ones fail. -/
def failingWriteWorld : World := { homeWorld with dbFaults := [false, true, true] }

/-- A header shorter than the literal `"Bearer "`. -/
def shortHeader : Bytes := ascii "abc"

/-! ## Theorems: the request gate and the response listener -/

theorem enterGate_inv (header : Bytes) : (enterGate header).Inv := by
  unfold enterGate
  by_cases h1 : header = []
  · simp [h1, Gate.Inv]
  · by_cases h2 : header.length < bearer.length
    · simp [h1, h2, Gate.Inv]
    · simp [h1, h2, Gate.Inv]
      omega

theorem Gate.Inv.of_idle {g : Gate} (h : g.Inv) (hpc : g.pc = .idle) : g = {} := by
  unfold Gate.Inv at h
  rw [hpc] at h
  exact h

theorem Gate.Inv.of_sending {g : Gate} (h : g.Inv) {token : Bytes} (hpc : g.pc = .sending token) :
    g = { pc := .sending token, header := g.header } ∧
      bearer.length ≤ g.header.length ∧ token = g.header.drop bearer.length := by
  unfold Gate.Inv at h
  rw [hpc] at h
  exact h

theorem Gate.Inv.of_registering {g : Gate} (h : g.Inv) (hpc : g.pc = .registering) :
    g = { pc := .registering, header := g.header, sent := some true } ∧
      bearer.length ≤ g.header.length := by
  unfold Gate.Inv at h
  rw [hpc] at h
  exact h

theorem Gate.Inv.of_waiting {g : Gate} (h : g.Inv) (hpc : g.pc = .waiting) :
    g = { pc := .waiting, header := g.header, sent := some true } ∧
      bearer.length ≤ g.header.length := by
  unfold Gate.Inv at h
  rw [hpc] at h
  exact h

/-- Changing channel buffers, the listener or the mark count keeps the invariant. -/
theorem State.Inv.of_same {s t : State} (hs : s.Inv) (hg : t.gates = s.gates)
    (hr : t.tokenVerificationResultCh = s.tokenVerificationResultCh)
    (ht : t.topic = s.topic) : t.Inv := by
  refine ⟨?_, ?_, ?_⟩
  · intro r; rw [hg]; exact hs.gates r
  · intro c hc; rw [hg]; exact hs.registered c (hr ▸ hc)
  · intro m hm; rw [hg]; exact hs.topic m (ht ▸ hm)

/-- Replacing the record of `r` by one that satisfies the shape invariant and keeps a
successful `sent` and the header keeps the state invariant. -/
theorem State.Inv.setGate {s : State} (hs : s.Inv) (r : Nat) (g : Gate) (hg : g.Inv)
    (hsent : (s.gates r).sent = some true →
      g.sent = some true ∧ g.header = (s.gates r).header) :
    (s.setGate r g).Inv := by
  refine ⟨?_, ?_, ?_⟩
  · intro x
    simp only [State.setGate]
    split_ifs
    · exact hg
    · exact hs.gates x
  · intro c hc
    have h1 := hs.registered c hc
    simp only [State.setGate]
    split_ifs with hcr
    · subst hcr; exact (hsent h1).1
    · exact h1
  · intro m hm
    have h1 := hs.topic m hm
    simp only [State.setGate]
    split_ifs with hcr
    · rw [hcr] at h1; exact ⟨(hsent h1.1).1, by rw [(hsent h1.1).2]; exact h1.2⟩
    · exact h1

theorem init_inv : init.Inv := by
  refine ⟨?_, ?_, ?_⟩
  · intro r; simp [init, Gate.Inv]
  · intro c hc; simp [init] at hc
  · intro m hm; simp [init] at hm

theorem deliver_inv {s : State} (hs : s.Inv) (resp : TokenVerificationResponse) :
    (deliver s resp).Inv := by
  unfold deliver
  split
  · exact hs.of_same rfl rfl rfl
  · split_ifs
    · exact hs.of_same rfl rfl rfl
    · exact hs.of_same rfl rfl rfl

theorem step_inv {s s' : State} {e : Event} (hs : s.Inv) (h : step s e = some s') :
    s'.Inv := by
  cases e with
  | request r header =>
    simp only [step, VerifyTokenAndInteractWithKafka, ConsumeClaim] at h
    split_ifs at h with hpc
    cases h
    refine hs.setGate r _ (enterGate_inv header) ?_
    intro h1
    rw [(hs.gates r).of_idle hpc] at h1
    cases h1
  | send r ok =>
    simp only [step, VerifyTokenAndInteractWithKafka, ConsumeClaim] at h
    split at h
    · rename_i token hpc
      obtain ⟨hg, hlen, htok⟩ := (hs.gates r).of_sending hpc
      have hsent : (s.gates r).sent = none := by rw [hg]
      split_ifs at h
      · cases h
        have h2 : (s.setGate r { s.gates r with pc := .registering, sent := some true }).Inv := by
          refine hs.setGate r _ ?_ ?_
          · rw [hg]; simp [Gate.Inv]; exact hlen
          · intro h1; rw [hsent] at h1; cases h1
        refine ⟨h2.gates, h2.registered, ?_⟩
        intro m hm
        simp only [List.mem_append, List.mem_singleton] at hm
        rcases hm with hm | hm
        · exact h2.topic m hm
        · subst hm
          simp [State.setGate, htok]
      · cases h
        refine hs.setGate r _ ?_ ?_
        · rw [hg]; simp [Gate.Inv]; exact hlen
        · intro h1; rw [hsent] at h1; cases h1
    · cases h
  | register r =>
    simp only [step, VerifyTokenAndInteractWithKafka, ConsumeClaim] at h
    split_ifs at h with hpc
    cases h
    obtain ⟨hg, hlen⟩ := (hs.gates r).of_registering hpc
    have h0 : (SetTokenVerificationResultChannel s r).Inv := by
      refine ⟨hs.gates, ?_, hs.topic⟩
      intro c hc
      simp only [SetTokenVerificationResultChannel, Option.some.injEq] at hc
      subst hc
      show (s.gates r).sent = some true
      rw [hg]
    refine h0.setGate r _ ?_ ?_
    · rw [hg]; simp [Gate.Inv]; exact hlen
    · intro _; exact ⟨by rw [hg], rfl⟩
  | recv r =>
    simp only [step, VerifyTokenAndInteractWithKafka, ConsumeClaim] at h
    split_ifs at h with hpc
    obtain ⟨hg, hlen⟩ := (hs.gates r).of_waiting hpc
    split at h
    · cases h
    · rename_i response rest hch
      have h0 : (s.setChan r rest).Inv := hs.of_same rfl rfl rfl
      split_ifs at h with hv
      · cases h
        refine h0.setGate r _ ?_ ?_
        · rw [hg]
          simp only [Gate.Inv]
          right; right; right; left
          exact ⟨response, hv, rfl, hlen⟩
        · intro _; exact ⟨by rw [hg], rfl⟩
      · cases h
        refine h0.setGate r _ ?_ ?_
        · rw [hg]
          simp only [Gate.Inv]
          right; right; right; right; left
          exact ⟨response, by simpa using hv, rfl, hlen⟩
        · intro _; exact ⟨by rw [hg], rfl⟩
  | timeout r =>
    simp only [step, VerifyTokenAndInteractWithKafka, ConsumeClaim] at h
    split_ifs at h with hpc
    obtain ⟨hg, hlen⟩ := (hs.gates r).of_waiting hpc
    cases h
    refine hs.setGate r _ ?_ ?_
    · rw [hg]
      simp only [Gate.Inv]
      right; right; right; right; right
      exact ⟨trivial, hlen⟩
    · intro _; exact ⟨by rw [hg], rfl⟩
  | message p =>
    simp only [step, VerifyTokenAndInteractWithKafka, ConsumeClaim] at h
    split at h
    · split at h
      · cases h; exact hs
      · cases h; exact deliver_inv hs _
    · cases h
  | resume =>
    simp only [step, VerifyTokenAndInteractWithKafka, ConsumeClaim] at h
    split at h
    · cases h
    · split_ifs at h
      cases h
      exact hs.of_same rfl rfl rfl

theorem run_inv {es : List Event} :
    ∀ {s s' : State}, s.Inv → run s es = some s' → s'.Inv := by
  induction es with
  | nil => intro s s' hs h; simp only [run, Option.some.injEq] at h; exact h ▸ hs
  | cons e es ih =>
    intro s s' hs h
    simp only [run] at h
    cases hstep : step s e with
    | none => rw [hstep] at h; cases h
    | some s1 =>
      rw [hstep] at h
      exact ih (step_inv hs hstep) h

theorem reachable_inv {es : List Event} {s : State} (h : run init es = some s) : s.Inv :=
  run_inv init_inv h

/-- A gate that has returned takes no further step. -/
theorem step_returned {s s' : State} {e : Event} (h : step s e = some s') (r : Nat)
    (hr : (s.gates r).pc = .returned) : s'.gates r = s.gates r := by
  cases e with
  | request q header =>
    simp only [step, VerifyTokenAndInteractWithKafka, ConsumeClaim] at h
    split_ifs at h with hpc
    cases h
    simp only [State.setGate]
    split_ifs with hq
    · subst hq; rw [hr] at hpc; cases hpc
    · rfl
  | send q ok =>
    simp only [step, VerifyTokenAndInteractWithKafka, ConsumeClaim] at h
    split at h
    · rename_i token hpc
      have hq : r ≠ q := by rintro rfl; rw [hr] at hpc; cases hpc
      split_ifs at h <;> cases h <;> simp [State.setGate, hq]
    · cases h
  | register q =>
    simp only [step, VerifyTokenAndInteractWithKafka, ConsumeClaim] at h
    split_ifs at h with hpc
    cases h
    have hq : r ≠ q := by rintro rfl; rw [hr] at hpc; cases hpc
    simp [State.setGate, SetTokenVerificationResultChannel, hq]
  | recv q =>
    simp only [step, VerifyTokenAndInteractWithKafka, ConsumeClaim] at h
    split_ifs at h with hpc
    have hq : r ≠ q := by rintro rfl; rw [hr] at hpc; cases hpc
    split at h
    · cases h
    · split_ifs at h <;> cases h <;> simp [State.setGate, State.setChan, hq]
  | timeout q =>
    simp only [step, VerifyTokenAndInteractWithKafka, ConsumeClaim] at h
    split_ifs at h with hpc
    have hq : r ≠ q := by rintro rfl; rw [hr] at hpc; cases hpc
    cases h
    simp [State.setGate, hq]
  | message p =>
    simp only [step, VerifyTokenAndInteractWithKafka, ConsumeClaim] at h
    split at h
    · split at h
      · cases h; rfl
      · cases h
        unfold deliver
        split
        · rfl
        · split_ifs <;> rfl
    · cases h
  | resume =>
    simp only [step, VerifyTokenAndInteractWithKafka, ConsumeClaim] at h
    split at h
    · cases h
    · split_ifs at h
      cases h
      rfl

/-- The full buffer of a channel whose gate has returned is never touched again. -/
theorem step_full {s s' : State} {e : Event} (h : step s e = some s') (r : Nat)
    (hr : (s.gates r).pc = .returned) (hfull : resultChCap ≤ (s.chans r).length) :
    s'.chans r = s.chans r := by
  cases e with
  | request q header =>
    simp only [step, VerifyTokenAndInteractWithKafka, ConsumeClaim] at h
    split_ifs at h with hpc
    cases h
    rfl
  | send q ok =>
    simp only [step, VerifyTokenAndInteractWithKafka, ConsumeClaim] at h
    split at h
    · split_ifs at h <;> cases h <;> rfl
    · cases h
  | register q =>
    simp only [step, VerifyTokenAndInteractWithKafka, ConsumeClaim] at h
    split_ifs at h with hpc
    cases h
    rfl
  | recv q =>
    simp only [step, VerifyTokenAndInteractWithKafka, ConsumeClaim] at h
    split_ifs at h with hpc
    have hq : r ≠ q := by rintro rfl; rw [hr] at hpc; cases hpc
    split at h
    · cases h
    · split_ifs at h <;> cases h <;> simp [State.setGate, State.setChan, hq]
  | timeout q =>
    simp only [step, VerifyTokenAndInteractWithKafka, ConsumeClaim] at h
    split_ifs at h with hpc
    cases h
    rfl
  | message p =>
    simp only [step, VerifyTokenAndInteractWithKafka, ConsumeClaim] at h
    split at h
    · split at h
      · cases h; rfl
      · cases h
        unfold deliver
        split
        · rfl
        · rename_i c hc
          split_ifs with hroom
          · have hq : r ≠ c := by rintro rfl; omega
            simp [State.setChan, hq]
          · rfl
    · cases h
  | resume =>
    simp only [step, VerifyTokenAndInteractWithKafka, ConsumeClaim] at h
    split at h
    · cases h
    · rename_i c resp hl
      split_ifs at h with hroom
      cases h
      have hq : r ≠ c := by rintro rfl; omega
      simp [State.setChan, hq]

/-- A listener blocked on the full channel of a returned gate stays blocked. -/
theorem step_blocked {s s' : State} {e : Event} (h : step s e = some s') (c : Nat)
    (resp : TokenVerificationResponse) (hl : s.listener = .blocked c resp)
    (hfull : resultChCap ≤ (s.chans c).length) :
    s'.listener = .blocked c resp := by
  cases e with
  | request q header =>
    simp only [step, VerifyTokenAndInteractWithKafka, ConsumeClaim] at h
    split_ifs at h with hpc
    cases h
    exact hl
  | send q ok =>
    simp only [step, VerifyTokenAndInteractWithKafka, ConsumeClaim] at h
    split at h
    · split_ifs at h <;> cases h <;> exact hl
    · cases h
  | register q =>
    simp only [step, VerifyTokenAndInteractWithKafka, ConsumeClaim] at h
    split_ifs at h with hpc
    cases h
    exact hl
  | recv q =>
    simp only [step, VerifyTokenAndInteractWithKafka, ConsumeClaim] at h
    split_ifs at h with hpc
    split at h
    · cases h
    · split_ifs at h <;> cases h <;> exact hl
  | timeout q =>
    simp only [step, VerifyTokenAndInteractWithKafka, ConsumeClaim] at h
    split_ifs at h with hpc
    cases h
    exact hl
  | message p =>
    simp only [step, VerifyTokenAndInteractWithKafka, ConsumeClaim] at h
    rw [hl] at h
    cases h
  | resume =>
    simp only [step, VerifyTokenAndInteractWithKafka, ConsumeClaim] at h
    rw [hl] at h
    simp only at h
    split_ifs at h with hroom
    omega

/-- The three facts above along a whole schedule. -/
theorem run_returned_full {es : List Event} : ∀ {s s' : State}, run s es = some s' →
    ∀ r, (s.gates r).pc = .returned → resultChCap ≤ (s.chans r).length →
      s'.gates r = s.gates r ∧ s'.chans r = s.chans r ∧
      ∀ resp, s.listener = .blocked r resp → s'.listener = .blocked r resp := by
  induction es with
  | nil =>
    intro s s' h r _ _
    simp only [run, Option.some.injEq] at h
    subst h
    exact ⟨rfl, rfl, fun _ hl => hl⟩
  | cons e es ih =>
    intro s s' h r hr hfull
    simp only [run] at h
    cases hstep : step s e with
    | none => rw [hstep] at h; cases h
    | some s1 =>
      rw [hstep] at h
      have hg := step_returned hstep r hr
      have hc := step_full hstep r hr hfull
      obtain ⟨h1, h2, h3⟩ := ih h r (by rw [hg]; exact hr) (by rw [hc]; exact hfull)
      refine ⟨by rw [h1, hg], by rw [h2, hc], ?_⟩
      intro resp hl
      exact h3 resp (step_blocked hstep r resp hl hfull)

/-! ## Claims about the request gate and the response listener -/

/-- C1 (fail-closed gate). In every state reachable under any interleaving of requests,
publishes, registrations, receptions, timeouts and listener steps, and for every request `r`:
the downstream operation ran (`c.Next()`) if and only if the publish returned nil and the
gate took a response with `Valid = true` from its channel (and then did not time out); in
that case `userID` holds that response's `UserID`. A received response with `Valid = false`
leaves status 401, a timeout leaves status 500, a failed publish leaves status 500, each
with `c.Abort()` called and the operation not run. -/
theorem gate_fail_closed (es : List Event) (s : State) (h : run init es = some s) (r : Nat) :
    ((s.gates r).nextRan = true ↔
      (s.gates r).sent = some true ∧ (s.gates r).timedOut = false ∧
        ∃ resp, (s.gates r).received = some resp ∧ resp.Valid = true) ∧
    ((s.gates r).nextRan = true →
      ∃ resp, (s.gates r).received = some resp ∧ (s.gates r).userID = some resp.UserID) ∧
    (∀ resp, (s.gates r).received = some resp → resp.Valid = false →
      (s.gates r).status = some 401 ∧ (s.gates r).aborted = true ∧
        (s.gates r).nextRan = false) ∧
    ((s.gates r).timedOut = true →
      (s.gates r).status = some 500 ∧ (s.gates r).aborted = true ∧
        (s.gates r).nextRan = false) ∧
    ((s.gates r).sent = some false →
      (s.gates r).status = some 500 ∧ (s.gates r).aborted = true ∧
        (s.gates r).nextRan = false) := by
  have hg := (reachable_inv h).gates r
  unfold Gate.Inv at hg
  split at hg
  · rw [hg]; simp
  · rw [hg.1]; simp
  · rw [hg.1]; simp
  · rw [hg.1]; simp
  · rcases hg with
      hg | ⟨hg, -⟩ | ⟨hg, -⟩ | ⟨resp, hv, hg, -⟩ | ⟨resp, hv, hg, -⟩ | ⟨hg, -⟩
    · rw [hg]; simp
    · rw [hg]; simp
    · rw [hg]; simp
    · rw [hg]; simp [hv]
    · rw [hg]; simp [hv]
    · rw [hg]; simp

/-- C1, at a concrete schedule: one request whose response arrives in time and is valid runs
the operation with the response's user id in the context. -/
theorem gate_fail_closed_witness :
    ∃ s, run init validSchedule = some s ∧
      (s.gates 1).nextRan = true ∧
      ((s.gates 1).nextRan = true →
        ∃ resp, (s.gates 1).received = some resp ∧ (s.gates 1).userID = some resp.UserID) :=
by
  refine ⟨_, rfl, ?_, ?_⟩
  · decide
  · exact (gate_fail_closed validSchedule _ rfl 1).2.1

theorem bearer_length : bearer.length = 7 := by decide

/-- The empty header is shorter than the literal. -/
theorem short_of_empty {header : Bytes} (h0 : header = [])
    (hl : bearer.length ≤ header.length) : False := by
  subst h0
  rw [bearer_length] at hl
  simp at hl

/-- C2, counterexample. The header `Basic dXNlcjpwYXNz` does not start with `Bearer `, yet the
gate does not reject it: it slices seven bytes off and publishes the rest as the token on
the request topic. -/
theorem malformed_header_published :
    basicHeader.take bearer.length ≠ bearer ∧
    ∃ s, run init basicSchedule = some s ∧
      s.topic = [(1, { Token := ascii "XNlcjpwYXNz" })] ∧
      (s.gates 1).pc = .registering ∧ (s.gates 1).aborted = false ∧
      (s.gates 1).status = none := by
  refine ⟨by decide, _, rfl, ?_, ?_, ?_, ?_⟩ <;> decide

/-- C2, as amended. For an absent (empty) `Authorization` header the gate returns at once with
status 401 and `c.Abort()`, leaving the request topic as it was, and in every reachable
state a request that came with an empty header has returned that way and no message on the
request topic is its own. A non-empty header is not compared with `Bearer `: whenever it is
at least as long as that literal, whatever its bytes, the gate goes on and a successful
publish puts its bytes from offset 7 on the topic as the token. -/
theorem absent_header_rejected (es : List Event) (s : State) (h : run init es = some s)
    (r : Nat) :
    ((s.gates r).pc = .idle → ∃ s1, step s (.request r []) = some s1 ∧
        s1.gates r = { pc := .returned, header := [], status := some 401, aborted := true } ∧
        s1.topic = s.topic) ∧
    ((s.gates r).pc ≠ .idle → (s.gates r).header = [] →
        s.gates r = { pc := .returned, header := [], status := some 401, aborted := true } ∧
        ∀ m ∈ s.topic, m.1 ≠ r) ∧
    (∀ header : Bytes, (s.gates r).pc = .idle → bearer.length ≤ header.length →
        ∃ s1 s2, step s (.request r header) = some s1 ∧ step s1 (.send r true) = some s2 ∧
          s2.topic = s.topic ++ [(r, { Token := header.drop bearer.length })]) := by
  have hinv := reachable_inv h
  refine ⟨?_, ?_, ?_⟩
  · intro hpc
    refine ⟨s.setGate r (enterGate []),
      by simp [step, VerifyTokenAndInteractWithKafka, hpc], ?_, rfl⟩
    simp [State.setGate, enterGate]
  · intro hpc hhdr
    have hg := hinv.gates r
    have hb := bearer_length
    have hgr : s.gates r =
        { pc := .returned, header := [], status := some 401, aborted := true } := by
      unfold Gate.Inv at hg
      split at hg
      · rename_i hidle; exact absurd hidle hpc
      · exact (short_of_empty hhdr hg.2.1).elim
      · exact (short_of_empty hhdr hg.2).elim
      · exact (short_of_empty hhdr hg.2).elim
      · rcases hg with
          hg | ⟨-, hne, -⟩ | ⟨-, hl⟩ | ⟨_, -, -, hl⟩ | ⟨_, -, -, hl⟩ | ⟨-, hl⟩
        · exact hg
        · exact absurd hhdr hne
        · exact (short_of_empty hhdr hl).elim
        · exact (short_of_empty hhdr hl).elim
        · exact (short_of_empty hhdr hl).elim
        · exact (short_of_empty hhdr hl).elim
    refine ⟨hgr, ?_⟩
    intro m hm hmr
    have h1 := (hinv.topic m hm).1
    rw [hmr, hgr] at h1
    cases h1
  · intro header hpc hlen
    have hb := bearer_length
    have hne : header ≠ [] := fun h0 => short_of_empty h0 hlen
    have hnl : ¬ header.length < bearer.length := by omega
    have hg : enterGate header =
        { pc := .sending (header.drop bearer.length), header := header } := by
      simp [enterGate, hne, hnl]
    have h1 : step s (.request r header) = some (s.setGate r (enterGate header)) := by
      simp [step, VerifyTokenAndInteractWithKafka, ConsumeClaim, hpc]
    have h2 : ((s.setGate r (enterGate header)).gates r).pc =
        .sending (header.drop bearer.length) := by
      simp [State.setGate, hg]
    have h3 : ∃ s2, step (s.setGate r (enterGate header)) (.send r true) = some s2 ∧
        s2.topic = s.topic ++ [(r, { Token := header.drop bearer.length })] := by
      simp only [step, VerifyTokenAndInteractWithKafka, ConsumeClaim]
      rw [h2]
      exact ⟨_, rfl, rfl⟩
    obtain ⟨s2, h4, h5⟩ := h3
    exact ⟨_, s2, h1, h4, h5⟩

/-- C2 as amended, at a concrete schedule: a request without header arriving after another
request was published is rejected with 401 and has published nothing. -/
theorem absent_header_rejected_witness :
    ∃ s, run init absentSchedule = some s ∧ (s.gates 2).header = [] ∧
      s.gates 2 = { pc := .returned, header := [], status := some 401, aborted := true } ∧
      ∀ m ∈ s.topic, m.1 ≠ 2 := by
  refine ⟨_, rfl, by decide, ?_⟩
  exact (absent_header_rejected absentSchedule _ rfl 2).2.1 (by decide) (by decide)

/-- C3, counterexample. Requests 1 and 2 are both waiting, the published envelopes hold only
the two tokens, and the one response that arrives carries correlation identifier 1: it is
delivered to the waiter of request 2, which runs the operation as user 101, while the
waiter of request 1 has received nothing and has nothing to receive. -/
theorem response_crosses_waiters :
    ∃ s, run init crossSchedule = some s ∧
      s.topic = [(1, { Token := ascii "abc" }), (2, { Token := ascii "bad" })] ∧
      (s.gates 2).received = some okResponse ∧ (s.gates 2).nextRan = true ∧
      (s.gates 2).userID = some 101 ∧
      (s.gates 1).pc = .waiting ∧ (s.gates 1).received = none ∧ s.chans 1 = [] ∧
      (step s (.recv 1)).isNone = true := by
  refine ⟨_, rfl, ?_, ?_, ?_, ?_, ?_, ?_, ?_, ?_⟩ <;> decide

/-- C3, as amended. What the listener does with a decoded response depends on the package
variable `tokenVerificationResultCh` and on the buffer of the channel it holds, not on
the correlation identifier of the message. Listener between messages: the step is the
same for every identifier and changes no gate record and not the variable; with a nil
variable the response is dropped and the message marked; with a registered channel whose
buffer is empty the response goes into that channel and no other and the message is
marked, the owner of that channel, if it is waiting, takes this response in its receive
step, and a request that is not waiting receives nothing; with a registered channel whose
buffer is full the listener blocks, no channel changes and the message is not marked.
Listener blocked on a channel: it takes no message; once the buffer of that channel is
empty the send completes into that channel, whatever the variable holds by then, changing
no gate record and not the variable, and the message is marked; it cannot complete
before. The request envelope a publish appends to the topic consists of the token
alone. -/
theorem response_routed_to_registered (s : State) (cid : Nat)
    (resp : TokenVerificationResponse) :
    (s.listener = .idle →
      ∃ s1, step s (.message (.envelope cid resp)) = some s1 ∧
        (∀ cid2, step s (.message (.envelope cid2 resp)) = some s1) ∧
        s1.gates = s.gates ∧ s1.tokenVerificationResultCh = s.tokenVerificationResultCh ∧
        (s.tokenVerificationResultCh = none →
          s1.chans = s.chans ∧ s1.listener = .idle ∧ s1.marked = s.marked + 1) ∧
        (∀ c, s.tokenVerificationResultCh = some c → s.chans c = [] →
          s1.chans c = [resp] ∧ (∀ q, q ≠ c → s1.chans q = s.chans q) ∧
          s1.listener = .idle ∧ s1.marked = s.marked + 1 ∧
          ((s.gates c).pc = .waiting →
            ∃ s2, step s1 (.recv c) = some s2 ∧ (s2.gates c).received = some resp ∧
              ∀ q, q ≠ c → s2.gates q = s.gates q ∧ s2.chans q = s.chans q) ∧
          (∀ q, (s.gates q).pc ≠ .waiting → step s1 (.recv q) = none)) ∧
        (∀ c, s.tokenVerificationResultCh = some c → s.chans c ≠ [] →
          s1.chans = s.chans ∧ s1.listener = .blocked c resp ∧ s1.marked = s.marked)) ∧
    (∀ c, s.listener = .blocked c resp →
      (∀ p, step s (.message p) = none) ∧
      (s.chans c = [] →
        ∃ s1, step s .resume = some s1 ∧ s1.chans c = [resp] ∧
          (∀ q, q ≠ c → s1.chans q = s.chans q) ∧ s1.gates = s.gates ∧
          s1.tokenVerificationResultCh = s.tokenVerificationResultCh ∧
          s1.listener = .idle ∧ s1.marked = s.marked + 1) ∧
      (s.chans c ≠ [] → step s .resume = none)) ∧
    (∀ r token, (s.gates r).pc = .sending token →
      ∃ s1, step s (.send r true) = some s1 ∧
        s1.topic = s.topic ++ [(r, { Token := token })]) := by
  refine ⟨?_, ?_, ?_⟩
  · intro hidle
    have h1 : ∀ cid2, step s (.message (.envelope cid2 resp)) = some (deliver s resp) := by
      intro cid2
      simp [step, ConsumeClaim, hidle, Unmarshal]
    refine ⟨deliver s resp, h1 cid, h1, ?_, ?_, ?_, ?_, ?_⟩
    · unfold deliver
      split
      · rfl
      · split <;> rfl
    · unfold deliver
      split
      · rfl
      · split <;> rfl
    · intro hreg
      simp [deliver, hreg, hidle]
    · intro c hreg hemp
      have hd : deliver s resp =
          { s.setChan c (s.chans c ++ [resp]) with marked := s.marked + 1 } := by
        simp [deliver, hreg, hemp, resultChCap]
      rw [hd]
      refine ⟨?_, ?_, hidle, rfl, ?_, ?_⟩
      · simp [State.setChan, hemp]
      · intro q hq; simp [State.setChan, hq]
      · intro hw
        by_cases hv : resp.Valid = true
        · refine ⟨_, by
            simp [step, VerifyTokenAndInteractWithKafka, State.setChan, hw, hemp, hv]
            rfl, ?_, ?_⟩
          · simp [State.setGate]
          · intro q hq; simp [State.setGate, State.setChan, hq]
        · refine ⟨_, by
            simp [step, VerifyTokenAndInteractWithKafka, State.setChan, hw, hemp, hv]
            rfl, ?_, ?_⟩
          · simp [State.setGate]
          · intro q hq; simp [State.setGate, State.setChan, hq]
      · intro q hq
        simp [step, VerifyTokenAndInteractWithKafka, State.setChan, hq]
    · intro c hreg hfull
      have hlen : ¬ (s.chans c).length < resultChCap := by
        cases hc : s.chans c with
        | nil => exact absurd hc hfull
        | cons a l => simp [resultChCap]
      have hd : deliver s resp = { s with listener := .blocked c resp } := by
        simp [deliver, hreg, hlen]
      rw [hd]
      exact ⟨rfl, rfl, rfl⟩
  · intro c hb
    refine ⟨?_, ?_, ?_⟩
    · intro p
      simp [step, ConsumeClaim, hb]
    · intro hemp
      have h1 : step s .resume = some { s.setChan c (s.chans c ++ [resp]) with
          listener := .idle, marked := s.marked + 1 } := by
        simp [step, ConsumeClaim, hb, hemp, resultChCap]
      refine ⟨_, h1, ?_, ?_, rfl, rfl, rfl, rfl⟩
      · simp [State.setChan, hemp]
      · intro q hq; simp [State.setChan, hq]
    · intro hfull
      have hlen : ¬ (s.chans c).length < resultChCap := by
        cases hc : s.chans c with
        | nil => exact absurd hc hfull
        | cons a l => simp [resultChCap]
      simp [step, ConsumeClaim, hb, hlen]
  · intro r token hpc
    refine ⟨_, by simp only [step, VerifyTokenAndInteractWithKafka]; rw [hpc]; rfl, rfl⟩

/-- C3 as amended, at a concrete state: with request 1 registered and waiting on an empty
buffer, a response carrying correlation identifier 7 lands in the channel of request 1 and
nowhere else. -/
theorem response_routed_to_registered_witness :
    waitingState.listener = .idle ∧ waitingState.tokenVerificationResultCh = some 1 ∧
    waitingState.chans 1 = [] ∧
    ∃ s1, step waitingState (.message (.envelope 7 okResponse)) = some s1 ∧
      s1.chans 1 = [okResponse] ∧ (∀ q, q ≠ 1 → s1.chans q = waitingState.chans q) :=
  ⟨by decide, by decide, by decide,
    ((response_routed_to_registered waitingState 7 okResponse).1 (by decide)).imp
      fun _ h => ⟨h.1, (h.2.2.2.2.2.1 1 (by decide) (by decide)).1,
        (h.2.2.2.2.2.1 1 (by decide) (by decide)).2.1⟩⟩

/-- C4, counterexample. First schedule: request 1 times out, request 2 registers, the response
for request 1 then arrives and is received by the waiter of request 2, which runs the
operation as user 101. Second schedule: request 1 times out and its response then arrives
twice; the second copy finds the one-slot buffer full, the listener blocks in the channel
send, and after any further schedule it is still blocked and accepts no message. -/
theorem late_response_received_and_listener_stuck :
    (∃ s, run init lateSchedule = some s ∧ (s.gates 1).timedOut = true ∧
      (s.gates 2).received = some okResponse ∧ (s.gates 2).nextRan = true ∧
      (s.gates 2).userID = some 101) ∧
    (∃ s, run init stuckSchedule = some s ∧ (s.gates 1).timedOut = true ∧
      s.listener = .blocked 1 okResponse ∧
      ∀ es s1, run s es = some s1 →
        s1.listener = .blocked 1 okResponse ∧ ∀ p, step s1 (.message p) = none) := by
  refine ⟨⟨_, rfl, ?_, ?_, ?_, ?_⟩, ⟨_, rfl, ?_, ?_, ?_⟩⟩
  · decide
  · decide
  · decide
  · decide
  · decide
  · decide
  · intro es s1 hrun
    have hl := (run_returned_full hrun 1 (by decide) (by decide)).2.2 okResponse (by decide)
    refine ⟨hl, ?_⟩
    intro p
    simp [step, VerifyTokenAndInteractWithKafka, ConsumeClaim, hl]

/-- C4, as amended. When the request whose channel is registered has already returned (for
instance by timeout) and that channel's buffer is empty, the listener handles a late
response without blocking: it parks the response in that buffer, marks the message and
is ready for the next one, no gate record changes, and along every further schedule the
returned request's record stays as it was and the response stays in the buffer, so no
waiter ever receives it. -/
theorem late_response_parked (s : State) (r cid : Nat) (resp : TokenVerificationResponse)
    (hret : (s.gates r).pc = .returned) (hreg : s.tokenVerificationResultCh = some r)
    (hemp : s.chans r = []) (hidle : s.listener = .idle) :
    ∃ s1, step s (.message (.envelope cid resp)) = some s1 ∧
      s1.listener = .idle ∧ s1.marked = s.marked + 1 ∧ s1.gates = s.gates ∧
      s1.chans r = [resp] ∧ (∀ c, c ≠ r → s1.chans c = s.chans c) ∧
      ∀ es s2, run s1 es = some s2 → s2.gates r = s.gates r ∧ s2.chans r = [resp] := by
  have h1 : step s (.message (.envelope cid resp)) =
      some { s.setChan r (s.chans r ++ [resp]) with marked := s.marked + 1 } := by
    simp [step, ConsumeClaim, hidle, Unmarshal, deliver, hreg, hemp, resultChCap]
  have hch : ({ s.setChan r (s.chans r ++ [resp]) with marked := s.marked + 1 } : State).chans r
      = [resp] := by
    simp [State.setChan, hemp]
  refine ⟨_, h1, hidle, rfl, rfl, hch, ?_, ?_⟩
  · intro c hc; simp [State.setChan, hc]
  · intro es s2 hrun
    have h2 := run_returned_full hrun r hret (by rw [hch]; simp [resultChCap])
    exact ⟨h2.1, by rw [h2.2.1, hch]⟩

/-- C4 as amended, at a concrete state: after request 1 timed out, its late response is
parked in the channel of request 1 and stays there. -/
theorem late_response_parked_witness :
    (timedOutState.gates 1).timedOut = true ∧ (timedOutState.gates 1).pc = .returned ∧
    timedOutState.tokenVerificationResultCh = some 1 ∧ timedOutState.chans 1 = [] ∧
    timedOutState.listener = .idle ∧
    ∃ s1, step timedOutState (.message (.envelope 1 okResponse)) = some s1 ∧
      s1.listener = .idle ∧ s1.chans 1 = [okResponse] ∧
      ∀ es s2, run s1 es = some s2 →
        s2.gates 1 = timedOutState.gates 1 ∧ s2.chans 1 = [okResponse] :=
  ⟨by decide, by decide, by decide, by decide, by decide,
    (late_response_parked timedOutState 1 1 okResponse (by decide) (by decide) (by decide)
      (by decide)).imp fun _ h => ⟨h.1, h.2.1, h.2.2.2.2.1, h.2.2.2.2.2.2⟩⟩

/-- C5, counterexample. After request 1 has timed out and returned with status 500,
`tokenVerificationResultCh` still refers to the channel of request 1. -/
theorem timeout_leaves_registration :
    ∃ s, run init timeoutSchedule = some s ∧ (s.gates 1).pc = .returned ∧
      (s.gates 1).timedOut = true ∧ (s.gates 1).status = some 500 ∧
      s.tokenVerificationResultCh = some 1 := by
  refine ⟨_, rfl, ?_, ?_, ?_, ?_⟩ <;> decide

/-- C5, as amended. In every reachable state: a request whose publish failed never registered
its channel, so `tokenVerificationResultCh` does not refer to it, neither right after the
failing publish nor later; a timeout leaves `tokenVerificationResultCh` exactly as it was
(nothing is deregistered). -/
theorem registry_after_failure (es : List Event) (s : State) (h : run init es = some s)
    (r : Nat) :
    ((s.gates r).sent = some false → s.tokenVerificationResultCh ≠ some r) ∧
    (∀ s1, step s (.send r false) = some s1 →
      s1.tokenVerificationResultCh = s.tokenVerificationResultCh ∧
        s1.tokenVerificationResultCh ≠ some r) ∧
    (∀ s1, step s (.timeout r) = some s1 →
      s1.tokenVerificationResultCh = s.tokenVerificationResultCh) := by
  have hinv := reachable_inv h
  refine ⟨?_, ?_, ?_⟩
  · intro hs hreg
    have := hinv.registered r hreg
    rw [hs] at this
    cases this
  · intro s1 h1
    simp only [step, VerifyTokenAndInteractWithKafka, ConsumeClaim] at h1
    split at h1
    · rename_i token hpc
      simp only [Bool.false_eq_true, if_false, Option.some.injEq] at h1
      subst h1
      refine ⟨rfl, ?_⟩
      intro hreg
      have h2 := hinv.registered r hreg
      rw [((hinv.gates r).of_sending hpc).1] at h2
      cases h2
    · cases h1
  · intro s1 h1
    simp only [step, VerifyTokenAndInteractWithKafka, ConsumeClaim] at h1
    split_ifs at h1
    cases h1
    rfl

/-- C5 as amended, at a concrete schedule: after a failed publish of request 1 the registry
does not refer to the channel of request 1. -/
theorem registry_after_failure_witness :
    ∃ s, run init failedSchedule = some s ∧ (s.gates 1).sent = some false ∧
      (s.gates 1).status = some 500 ∧ s.tokenVerificationResultCh ≠ some 1 := by
  refine ⟨_, rfl, by decide, by decide, ?_⟩
  exact (registry_after_failure failedSchedule _ rfl 1).1 (by decide)

/-! ## Theorems: the cache-aside handlers -/

/-- A cache call on a working backend succeeds and leaves the script empty. -/
theorem World.rdbCall_ok (w : World) (h : w.rdbFaults = []) : w.rdbCall = (false, w) := by
  cases w
  simp only at h
  subst h
  rfl

theorem rdbGet_ok (key : Key) (w : World) (h : w.rdbFaults = []) :
    rdbGet key w = (match w.rdb key with | some v => .val v | none => .redisNil, w) := by
  unfold rdbGet
  rw [w.rdbCall_ok h]
  simp only
  cases w.rdb key <;> rfl

theorem rdbSet_ok (key : Key) (data : Bytes) (w : World) (h : w.rdbFaults = []) :
    rdbSet key data w =
      (false, { w with rdb := fun k => if k = key then some data else w.rdb k }) := by
  unfold rdbSet
  rw [w.rdbCall_ok h]

theorem rdbDel_ok (key : Key) (w : World) (h : w.rdbFaults = []) :
    rdbDel key w = { w with rdb := fun k => if k = key then none else w.rdb k } := by
  unfold rdbDel
  rw [w.rdbCall_ok h]

/-- A store call leaves the cache and its script alone. -/
theorem World.dbCall_rdb (w : World) :
    w.dbCall.2.rdb = w.rdb ∧ w.dbCall.2.rdbFaults = w.rdbFaults ∧ w.dbCall.2.db = w.db :=
  ⟨rfl, rfl, rfl⟩

theorem getGroups_hit (J : Codec) (w : World) (v : Bytes) (gs : List Group)
    (hc : w.rdbFaults = []) (hv : w.rdb .groupsAll = some v)
    (hu : J.unmarshalGroups v = some gs) :
    GetGroups J w = (⟨200, .groups gs⟩, w) := by
  unfold GetGroups
  rw [rdbGet_ok _ _ hc]
  simp [hv, hu]

theorem getGroups_stored (J : Codec) (hJ : J.Inverts) (w : World) (hc : w.rdbFaults = [])
    (h200 : (GetGroups J w).1.status = 200) :
    ∃ v gs, (GetGroups J w).1 = ⟨200, .groups gs⟩ ∧
      (GetGroups J w).2.rdb .groupsAll = some v ∧ J.unmarshalGroups v = some gs ∧
      (GetGroups J w).2.rdbFaults = [] := by
  unfold GetGroups at h200 ⊢
  rw [rdbGet_ok _ _ hc] at h200 ⊢
  cases hv : w.rdb .groupsAll with
  | some v =>
    simp only [hv] at h200 ⊢
    cases hu : J.unmarshalGroups v with
    | none => simp [hu] at h200
    | some gs => exact ⟨v, gs, rfl, hv, hu, hc⟩
  | none =>
    simp only [hv] at h200 ⊢
    unfold dbFindGroups at h200 ⊢
    cases hd : w.dbCall with
    | mk f w1 =>
      have hc1 : w1.rdbFaults = [] := by
        have := w.dbCall_rdb.2.1
        rw [hd] at this
        rw [this]; exact hc
      cases f with
      | true => simp [hd] at h200
      | false =>
        simp only [hd] at h200 ⊢
        obtain ⟨b, hb, hub⟩ := hJ.groups (w1.db.groups.map w1.db.preload)
        simp only [hb]
        rw [rdbSet_ok _ _ _ hc1]
        exact ⟨b, _, rfl, by simp, hub, hc1⟩

theorem getGroups_repeats (J : Codec) (hJ : J.Inverts) (w : World) (hc : w.rdbFaults = [])
    (h200 : (GetGroups J w).1.status = 200) :
    (GetGroups J (GetGroups J w).2).1 = (GetGroups J w).1 ∧
      (GetGroups J (GetGroups J w).2).2.dbCalls = (GetGroups J w).2.dbCalls := by
  obtain ⟨v, gs, h1, h2, h3, h4⟩ := getGroups_stored J hJ w hc h200
  rw [getGroups_hit J _ v gs h4 h2 h3, h1]
  exact ⟨rfl, rfl⟩

theorem getGroup_hit (J : Codec) (id : Nat) (w : World) (v : Bytes) (g : Group)
    (hc : w.rdbFaults = []) (hv : w.rdb (.group id) = some v)
    (hu : J.unmarshalGroup v = some g) :
    GetGroup J id w = (⟨200, .group g⟩, w) := by
  unfold GetGroup
  rw [rdbGet_ok _ _ hc]
  simp [hv, hu]

theorem getGroupFromStore_stored (J : Codec) (hJ : J.Inverts) (group : Group) (id : Nat)
    (w : World) (hc : w.rdbFaults = [])
    (h200 : (GetGroupFromStore J group id w).1.status = 200) :
    ∃ v g, (GetGroupFromStore J group id w).1 = ⟨200, .group g⟩ ∧
      (GetGroupFromStore J group id w).2.rdb (.group id) = some v ∧
      J.unmarshalGroup v = some g ∧ (GetGroupFromStore J group id w).2.rdbFaults = [] := by
  revert h200
  unfold GetGroupFromStore dbFirstGroupInto
  cases hd : w.dbCall with
  | mk f w1 =>
    have hc1 : w1.rdbFaults = [] := by
      have := w.dbCall_rdb.2.1
      rw [hd] at this
      rw [this]; exact hc
    cases f with
    | true => simp
    | false =>
      dsimp only
      generalize (w1.db.groups.find? fun g => g.ID = id ∧ (group.ID = 0 ∨ g.ID = group.ID)) =
        found
      cases found with
      | none => simp
      | some row =>
        intro _
        dsimp only
        obtain ⟨b, hb, hub⟩ := hJ.group (w1.db.preload row)
        simp only [hb]
        rw [rdbSet_ok _ _ _ hc1]
        exact ⟨b, _, rfl, by simp, hub, hc1⟩

theorem getGroup_stored (J : Codec) (hJ : J.Inverts) (id : Nat) (w : World)
    (hc : w.rdbFaults = []) (h200 : (GetGroup J id w).1.status = 200) :
    ∃ v g, (GetGroup J id w).1 = ⟨200, .group g⟩ ∧
      (GetGroup J id w).2.rdb (.group id) = some v ∧ J.unmarshalGroup v = some g ∧
      (GetGroup J id w).2.rdbFaults = [] := by
  unfold GetGroup at h200 ⊢
  rw [rdbGet_ok _ _ hc] at h200 ⊢
  cases hv : w.rdb (.group id) with
  | some v =>
    simp only [hv] at h200 ⊢
    cases hu : J.unmarshalGroup v with
    | none =>
      simp only [hu] at h200 ⊢
      exact getGroupFromStore_stored J hJ _ id w hc h200
    | some g => exact ⟨v, g, rfl, hv, hu, hc⟩
  | none =>
    simp only [hv] at h200 ⊢
    exact getGroupFromStore_stored J hJ _ id w hc h200

theorem getToDos_hit (J : Codec) (w : World) (v : Bytes) (ts : List ToDo)
    (hc : w.rdbFaults = []) (hv : w.rdb .todosAll = some v)
    (hu : J.unmarshalToDos v = some ts) :
    GetToDos J w = (⟨200, .todos ts⟩, w) := by
  unfold GetToDos
  rw [rdbGet_ok _ _ hc]
  simp [hv, hu]

theorem getToDos_stored (J : Codec) (hJ : J.Inverts) (w : World) (hc : w.rdbFaults = [])
    (h200 : (GetToDos J w).1.status = 200) :
    ∃ v ts, (GetToDos J w).1 = ⟨200, .todos ts⟩ ∧
      (GetToDos J w).2.rdb .todosAll = some v ∧ J.unmarshalToDos v = some ts ∧
      (GetToDos J w).2.rdbFaults = [] := by
  unfold GetToDos at h200 ⊢
  rw [rdbGet_ok _ _ hc] at h200 ⊢
  cases hv : w.rdb .todosAll with
  | some v =>
    simp only [hv] at h200 ⊢
    cases hu : J.unmarshalToDos v with
    | none => simp [hu] at h200
    | some ts => exact ⟨v, ts, rfl, hv, hu, hc⟩
  | none =>
    simp only [hv] at h200 ⊢
    unfold dbFindToDos at h200 ⊢
    cases hd : w.dbCall with
    | mk f w1 =>
      have hc1 : w1.rdbFaults = [] := by
        have := w.dbCall_rdb.2.1
        rw [hd] at this
        rw [this]; exact hc
      cases f with
      | true => simp [hd] at h200
      | false =>
        simp only [hd] at h200 ⊢
        obtain ⟨b, hb, hub⟩ := hJ.todos w1.db.todos
        simp only [hb]
        rw [rdbSet_ok _ _ _ hc1]
        exact ⟨b, _, rfl, by simp, hub, hc1⟩

theorem getToDosById_hit (J : Codec) (id : Nat) (w : World) (v : Bytes) (t : ToDo)
    (hc : w.rdbFaults = []) (hv : w.rdb (.todo id) = some v)
    (hu : J.unmarshalToDo v = some t) :
    GetToDosById J id w = (⟨200, .todo t⟩, w) := by
  unfold GetToDosById
  rw [rdbGet_ok _ _ hc]
  simp [hv, hu]

theorem getToDosByIdFromStore_stored (J : Codec) (hJ : J.Inverts) (todo : ToDo) (id : Nat)
    (w : World) (hc : w.rdbFaults = [])
    (h200 : (GetToDosByIdFromStore J todo id w).1.status = 200) :
    ∃ v t, (GetToDosByIdFromStore J todo id w).1 = ⟨200, .todo t⟩ ∧
      (GetToDosByIdFromStore J todo id w).2.rdb (.todo id) = some v ∧
      J.unmarshalToDo v = some t ∧ (GetToDosByIdFromStore J todo id w).2.rdbFaults = [] := by
  revert h200
  unfold GetToDosByIdFromStore dbFirstToDoInto
  cases hd : w.dbCall with
  | mk f w1 =>
    have hc1 : w1.rdbFaults = [] := by
      have := w.dbCall_rdb.2.1
      rw [hd] at this
      rw [this]; exact hc
    cases f with
    | true => simp
    | false =>
      dsimp only
      generalize (w1.db.todos.find? fun t => t.ID = id ∧ (todo.ID = 0 ∨ t.ID = todo.ID)) =
        found
      cases found with
      | none => simp
      | some row =>
        intro _
        dsimp only
        obtain ⟨b, hb, hub⟩ := hJ.todo row
        simp only [hb]
        rw [rdbSet_ok _ _ _ hc1]
        exact ⟨b, _, rfl, by simp, hub, hc1⟩

theorem getToDosById_stored (J : Codec) (hJ : J.Inverts) (id : Nat) (w : World)
    (hc : w.rdbFaults = []) (h200 : (GetToDosById J id w).1.status = 200) :
    ∃ v t, (GetToDosById J id w).1 = ⟨200, .todo t⟩ ∧
      (GetToDosById J id w).2.rdb (.todo id) = some v ∧ J.unmarshalToDo v = some t ∧
      (GetToDosById J id w).2.rdbFaults = [] := by
  unfold GetToDosById at h200 ⊢
  rw [rdbGet_ok _ _ hc] at h200 ⊢
  cases hv : w.rdb (.todo id) with
  | some v =>
    simp only [hv] at h200 ⊢
    cases hu : J.unmarshalToDo v with
    | none =>
      simp only [hu] at h200 ⊢
      exact getToDosByIdFromStore_stored J hJ _ id w hc h200
    | some t => exact ⟨v, t, rfl, hv, hu, hc⟩
  | none =>
    simp only [hv] at h200 ⊢
    exact getToDosByIdFromStore_stored J hJ _ id w hc h200

/-- C7, as amended. For each of `GetGroups`, `GetGroup`, `GetToDos`, `GetToDosById`, every
store and cache content and any script of store faults: if the cache backend works,
decoding inverts encoding, and the first call answers 200, then a second call on the world
the first one left answers with the same status and body and issues no store call. -/
theorem cached_read_repeats (J : Codec) (hJ : J.Inverts) (w : World)
    (hc : w.rdbFaults = []) (id : Nat) :
    ((GetGroups J w).1.status = 200 →
      (GetGroups J (GetGroups J w).2).1 = (GetGroups J w).1 ∧
        (GetGroups J (GetGroups J w).2).2.dbCalls = (GetGroups J w).2.dbCalls) ∧
    ((GetGroup J id w).1.status = 200 →
      (GetGroup J id (GetGroup J id w).2).1 = (GetGroup J id w).1 ∧
        (GetGroup J id (GetGroup J id w).2).2.dbCalls = (GetGroup J id w).2.dbCalls) ∧
    ((GetToDos J w).1.status = 200 →
      (GetToDos J (GetToDos J w).2).1 = (GetToDos J w).1 ∧
        (GetToDos J (GetToDos J w).2).2.dbCalls = (GetToDos J w).2.dbCalls) ∧
    ((GetToDosById J id w).1.status = 200 →
      (GetToDosById J id (GetToDosById J id w).2).1 = (GetToDosById J id w).1 ∧
        (GetToDosById J id (GetToDosById J id w).2).2.dbCalls =
          (GetToDosById J id w).2.dbCalls) := by
  refine ⟨?_, ?_, ?_, ?_⟩
  · exact getGroups_repeats J hJ w hc
  · intro h200
    obtain ⟨v, g, h1, h2, h3, h4⟩ := getGroup_stored J hJ id w hc h200
    rw [getGroup_hit J id _ v g h4 h2 h3, h1]
    exact ⟨rfl, rfl⟩
  · intro h200
    obtain ⟨v, ts, h1, h2, h3, h4⟩ := getToDos_stored J hJ w hc h200
    rw [getToDos_hit J _ v ts h4 h2 h3, h1]
    exact ⟨rfl, rfl⟩
  · intro h200
    obtain ⟨v, t, h1, h2, h3, h4⟩ := getToDosById_stored J hJ id w hc h200
    rw [getToDosById_hit J id _ v t h4 h2 h3, h1]
    exact ⟨rfl, rfl⟩

theorem unwireToDo_wireToDo (t : ToDo) : unwireToDo (wireToDo t) = some t := by
  cases t with
  | mk id title status gid created =>
    simp [wireToDo, unwireToDo]

theorem length_le_wireToDos (ts : List ToDo) : ts.length ≤ (wireToDos ts).length := by
  induction ts with
  | nil => simp [wireToDos]
  | cons t ts ih => simp only [wireToDos, List.length_cons, List.length_append]; omega

theorem unwireToDos_wireToDos (ts : List ToDo) :
    ∀ fuel, ts.length ≤ fuel → unwireToDos fuel (wireToDos ts) = some ts := by
  induction ts with
  | nil => intro fuel _; cases fuel <;> simp [wireToDos, unwireToDos]
  | cons t ts ih =>
    intro fuel hf
    cases fuel with
    | zero => simp at hf
    | succ fuel =>
      simp only [List.length_cons, Nat.add_le_add_iff_right] at hf
      simp [wireToDos, unwireToDos, unwireToDo_wireToDo, ih fuel hf]

theorem unwireGroup_wireGroup (g : Group) : unwireGroup (wireGroup g) = some g := by
  cases g with
  | mk id name todos created =>
    simp [wireGroup, unwireGroup, unwireToDos_wireToDos todos _ (length_le_wireToDos todos)]

theorem length_le_wireGroups (gs : List Group) : gs.length ≤ (wireGroups gs).length := by
  induction gs with
  | nil => simp [wireGroups]
  | cons g gs ih => simp only [wireGroups, List.length_cons, List.length_append]; omega

theorem unwireGroups_wireGroups (gs : List Group) :
    ∀ fuel, gs.length ≤ fuel → unwireGroups fuel (wireGroups gs) = some gs := by
  induction gs with
  | nil => intro fuel _; cases fuel <;> simp [wireGroups, unwireGroups]
  | cons g gs ih =>
    intro fuel hf
    cases fuel with
    | zero => simp at hf
    | succ fuel =>
      simp only [List.length_cons, Nat.add_le_add_iff_right] at hf
      simp [wireGroups, unwireGroups, unwireGroup_wireGroup, ih fuel hf]

theorem wire_inverts : wire.Inverts where
  groups := fun gs => ⟨_, rfl, unwireGroups_wireGroups gs _ (length_le_wireGroups gs)⟩
  group := fun g => ⟨_, rfl, unwireGroup_wireGroup g⟩
  todos := fun ts => ⟨_, rfl, unwireToDos_wireToDos ts _ (length_le_wireToDos ts)⟩
  todo := fun t => ⟨_, rfl, unwireToDo_wireToDo t⟩

/-- C6, evaluated at a failing input. Item 1 is read (which caches `todo:1`) and then deleted:
`DeleteToDo` answers 200 and the row is gone from the store, yet `GetToDosById` called
right after answers 200 with the deleted item. Likewise group 1 is read, then deleted with
its item, and `GetGroup` called right after answers 200 with the deleted group and item. -/
theorem deleted_entity_still_served :
    ((GetToDosById wire 1 homeWorld).1 = ⟨200, .todo milk⟩ ∧
      (DeleteToDo 1 (GetToDosById wire 1 homeWorld).2).1.status = 200 ∧
      (DeleteToDo 1 (GetToDosById wire 1 homeWorld).2).2.db.todos = [report] ∧
      (GetToDosById wire 1 (DeleteToDo 1 (GetToDosById wire 1 homeWorld).2).2).1 =
        ⟨200, .todo milk⟩) ∧
    ((DeleteGroup 1 (GetGroup wire 1 homeWorld).2).1.status = 200 ∧
      (DeleteGroup 1 (GetGroup wire 1 homeWorld).2).2.db =
        { groups := [work], todos := [report] } ∧
      (GetGroup wire 1 (DeleteGroup 1 (GetGroup wire 1 homeWorld).2).2).1 =
        ⟨200, .group (homeWorld.db.preload home)⟩) := by
  decide

/-- C7, counterexample. With a working cache and no mutation in between, `GetGroup` for an id
that the store does not hold answers 404 twice, and the second call queries the store
again. -/
theorem absent_group_queried_twice :
    homeWorld.rdbFaults = [] ∧
    (GetGroup wire 5 homeWorld).1 = ⟨404, .error "Group not found"⟩ ∧
    (GetGroup wire 5 (GetGroup wire 5 homeWorld).2).1 = ⟨404, .error "Group not found"⟩ ∧
    (GetGroup wire 5 (GetGroup wire 5 homeWorld).2).2.dbCalls =
      (GetGroup wire 5 homeWorld).2.dbCalls + 1 := by
  decide

/-- C7 as amended, at a concrete world: `GetToDos` twice on a two-item store. -/
theorem cached_read_repeats_witness :
    homeWorld.rdbFaults = [] ∧ (GetToDos wire homeWorld).1.status = 200 ∧
    (GetToDos wire (GetToDos wire homeWorld).2).1 = (GetToDos wire homeWorld).1 ∧
    (GetToDos wire (GetToDos wire homeWorld).2).2.dbCalls =
      (GetToDos wire homeWorld).2.dbCalls :=
  ⟨rfl, by decide, (cached_read_repeats wire wire_inverts homeWorld rfl 1).2.2.1 (by decide)⟩

/-- C8, counterexample. With an entry under `groups:all` (and `todos:all`) that does not
decode, `GetGroups` (and `GetToDos`) answers 500 with its unmarshal error and issues no
store call, although the store holds the data. With an entry under `todo:1` (and `group:1`)
whose decoding fails after it has put the id 5 into the variable, `GetToDosById` (and
`GetGroup`) for id 1 queries the store and answers 404, although the store holds item 1
(and group 1). -/
theorem undecodable_collection_is_500 :
    garbledWorld.rdb .groupsAll = some [5] ∧ wire.unmarshalGroups [5] = none ∧
    (GetGroups wire garbledWorld).1 = ⟨500, .error "Failed to unmarshal groups"⟩ ∧
    (GetGroups wire garbledWorld).2.dbCalls = garbledWorld.dbCalls ∧
    (GetToDos wire garbledWorld).1 = ⟨500, .error "Failed to unmarshal todos"⟩ ∧
    (GetToDos wire garbledWorld).2.dbCalls = garbledWorld.dbCalls ∧
    garbledWorld.rdb (.todo 1) = some [5] ∧ wire.unmarshalToDo [5] = none ∧
    (wire.todoAfterError [5]).ID = 5 ∧ milk ∈ garbledWorld.db.todos ∧ milk.ID = 1 ∧
    (GetToDosById wire 1 garbledWorld).1 = ⟨404, .error "ToDo not found"⟩ ∧
    (GetToDosById wire 1 garbledWorld).2.dbCalls = garbledWorld.dbCalls + 1 ∧
    wire.unmarshalGroup [5] = none ∧ (wire.groupAfterError [5]).ID = 5 ∧
    home ∈ garbledWorld.db.groups ∧ home.ID = 1 ∧
    (GetGroup wire 1 garbledWorld).1 = ⟨404, .error "Group not found"⟩ ∧
    (GetGroup wire 1 garbledWorld).2.dbCalls = garbledWorld.dbCalls + 1 := by
  decide

/-- A store call on a working store succeeds and leaves the script empty. -/
theorem World.dbCall_ok (w : World) (h : w.dbFaults = []) :
    w.dbCall = (false, { w with dbCalls := w.dbCalls + 1 }) := by
  cases w
  simp only at h
  subst h
  rfl

/-- The condition gorm adds for the key of the destination changes nothing when that key
is blank or is the requested one. -/
theorem find_into_same {α : Type} (l : List α) (key : α → Nat) (id k : Nat)
    (hk : k = 0 ∨ k = id) :
    (l.find? fun t => key t = id ∧ (k = 0 ∨ key t = k)) = l.find? fun t => key t = id := by
  congr 1
  funext t
  rcases hk with hk | hk
  · simp [hk]
  · subst hk
    by_cases h : key t = k <;> simp [h]

/-- The condition gorm adds for the key of the destination excludes every row when that key
is neither blank nor the requested one. -/
theorem find_into_other {α : Type} (l : List α) (key : α → Nat) (id k : Nat)
    (h0 : k ≠ 0) (hk : k ≠ id) :
    (l.find? fun t => key t = id ∧ (k = 0 ∨ key t = k)) = none := by
  rw [List.find?_eq_none]
  intro t _
  simp only [decide_eq_true_eq, not_and, not_or]
  intro h
  exact ⟨h0, by rw [h]; exact fun e => hk e.symm⟩

/-- What `GetGroupFromStore` does on working backends, by the outcome of the lookup. -/
theorem getGroupFromStore_ok (J : Codec) (group : Group) (id : Nat) (w : World)
    (hc : w.rdbFaults = []) (hd : w.dbFaults = []) :
    (GetGroupFromStore J group id w).2.dbCalls = w.dbCalls + 1 ∧
    (∀ row, (w.db.groups.find? fun g => g.ID = id ∧ (group.ID = 0 ∨ g.ID = group.ID)) =
        some row →
      (GetGroupFromStore J group id w).1 = ⟨200, .group (w.db.preload row)⟩) ∧
    ((w.db.groups.find? fun g => g.ID = id ∧ (group.ID = 0 ∨ g.ID = group.ID)) = none →
      (GetGroupFromStore J group id w).1 = ⟨404, .error "Group not found"⟩) := by
  unfold GetGroupFromStore dbFirstGroupInto
  rw [w.dbCall_ok hd]
  simp only
  cases hf : w.db.groups.find? fun g => g.ID = id ∧ (group.ID = 0 ∨ g.ID = group.ID) with
  | none => simp
  | some row =>
    simp only
    cases hm : J.marshalGroup (Store.preload w.db row) with
    | none => simp [Store.preload]
    | some b => simp [rdbSet, World.rdbCall, hc, Store.preload]

/-- What `GetToDosByIdFromStore` does on working backends, by the outcome of the lookup. -/
theorem getToDosByIdFromStore_ok (J : Codec) (todo : ToDo) (id : Nat) (w : World)
    (hc : w.rdbFaults = []) (hd : w.dbFaults = []) :
    (GetToDosByIdFromStore J todo id w).2.dbCalls = w.dbCalls + 1 ∧
    (∀ row, (w.db.todos.find? fun t => t.ID = id ∧ (todo.ID = 0 ∨ t.ID = todo.ID)) =
        some row →
      (GetToDosByIdFromStore J todo id w).1 = ⟨200, .todo row⟩) ∧
    ((w.db.todos.find? fun t => t.ID = id ∧ (todo.ID = 0 ∨ t.ID = todo.ID)) = none →
      (GetToDosByIdFromStore J todo id w).1 = ⟨404, .error "ToDo not found"⟩) := by
  unfold GetToDosByIdFromStore dbFirstToDoInto
  rw [w.dbCall_ok hd]
  simp only
  cases hf : w.db.todos.find? fun t => t.ID = id ∧ (todo.ID = 0 ∨ t.ID = todo.ID) with
  | none => simp
  | some row =>
    simp only
    cases hm : J.marshalToDo row with
    | none => simp
    | some b => simp [rdbSet, World.rdbCall, hc]

/-- C8, as amended. With working backends and an entry under the key that fails to decode:
`GetGroup` and `GetToDosById` answer no error for that but issue one store call, with the
variable the failed decoding wrote into as destination; they answer 200 with the store's
row when the row exists and the id left in that variable is zero or the requested id, and
404 when the row does not exist or the id left in that variable is another non-zero id.
`GetGroups` and `GetToDos` answer 500 with their unmarshal error and leave the world
untouched (no store call). -/
theorem undecodable_entry (J : Codec) (w : World) (id : Nat) (v : Bytes)
    (hc : w.rdbFaults = []) (hd : w.dbFaults = []) :
    (w.rdb (.group id) = some v → J.unmarshalGroup v = none →
      (GetGroup J id w).2.dbCalls = w.dbCalls + 1 ∧
      (∀ row, (w.db.groups.find? fun g => g.ID = id) = some row →
        (J.groupAfterError v).ID = 0 ∨ (J.groupAfterError v).ID = id →
        (GetGroup J id w).1 = ⟨200, .group (w.db.preload row)⟩) ∧
      ((w.db.groups.find? fun g => g.ID = id) = none ∨
          ((J.groupAfterError v).ID ≠ 0 ∧ (J.groupAfterError v).ID ≠ id) →
        (GetGroup J id w).1 = ⟨404, .error "Group not found"⟩)) ∧
    (w.rdb (.todo id) = some v → J.unmarshalToDo v = none →
      (GetToDosById J id w).2.dbCalls = w.dbCalls + 1 ∧
      (∀ row, (w.db.todos.find? fun t => t.ID = id) = some row →
        (J.todoAfterError v).ID = 0 ∨ (J.todoAfterError v).ID = id →
        (GetToDosById J id w).1 = ⟨200, .todo row⟩) ∧
      ((w.db.todos.find? fun t => t.ID = id) = none ∨
          ((J.todoAfterError v).ID ≠ 0 ∧ (J.todoAfterError v).ID ≠ id) →
        (GetToDosById J id w).1 = ⟨404, .error "ToDo not found"⟩)) ∧
    (w.rdb .groupsAll = some v → J.unmarshalGroups v = none →
      GetGroups J w = (⟨500, .error "Failed to unmarshal groups"⟩, w)) ∧
    (w.rdb .todosAll = some v → J.unmarshalToDos v = none →
      GetToDos J w = (⟨500, .error "Failed to unmarshal todos"⟩, w)) := by
  refine ⟨?_, ?_, ?_, ?_⟩
  · intro hv hu
    have h1 : GetGroup J id w = GetGroupFromStore J (J.groupAfterError v) id w := by
      unfold GetGroup
      rw [rdbGet_ok _ _ hc]
      simp [hv, hu]
    rw [h1]
    obtain ⟨hn, hfound, hnone⟩ := getGroupFromStore_ok J (J.groupAfterError v) id w hc hd
    refine ⟨hn, ?_, ?_⟩
    · intro row hrow hk
      apply hfound
      rw [find_into_same _ GroupRow.ID id _ hk]
      exact hrow
    · intro h
      apply hnone
      by_cases hk : (J.groupAfterError v).ID = 0 ∨ (J.groupAfterError v).ID = id
      · rw [find_into_same _ GroupRow.ID id _ hk]
        rcases h with h | h
        · exact h
        · rcases hk with hk | hk
          · exact absurd hk h.1
          · exact absurd hk h.2
      · rw [not_or] at hk
        exact find_into_other _ GroupRow.ID id _ hk.1 hk.2
  · intro hv hu
    have h1 : GetToDosById J id w = GetToDosByIdFromStore J (J.todoAfterError v) id w := by
      unfold GetToDosById
      rw [rdbGet_ok _ _ hc]
      simp [hv, hu]
    rw [h1]
    obtain ⟨hn, hfound, hnone⟩ := getToDosByIdFromStore_ok J (J.todoAfterError v) id w hc hd
    refine ⟨hn, ?_, ?_⟩
    · intro row hrow hk
      apply hfound
      rw [find_into_same _ ToDo.ID id _ hk]
      exact hrow
    · intro h
      apply hnone
      by_cases hk : (J.todoAfterError v).ID = 0 ∨ (J.todoAfterError v).ID = id
      · rw [find_into_same _ ToDo.ID id _ hk]
        rcases h with h | h
        · exact h
        · rcases hk with hk | hk
          · exact absurd hk h.1
          · exact absurd hk h.2
      · rw [not_or] at hk
        exact find_into_other _ ToDo.ID id _ hk.1 hk.2
  · intro hv hu
    unfold GetGroups
    rw [rdbGet_ok _ _ hc]
    simp [hv, hu]
  · intro hv hu
    unfold GetToDos
    rw [rdbGet_ok _ _ hc]
    simp [hv, hu]

/-- C8 as amended, at a concrete world: `GetToDosById` for id 1 over an entry `todo:1` whose
decoding fails after it has put the id 1 into the variable answers 200 with the store's
item after one store call. -/
theorem undecodable_entry_witness :
    cutOffWorld.rdbFaults = [] ∧ cutOffWorld.dbFaults = [] ∧
    cutOffWorld.rdb (.todo 1) = some [1] ∧ wire.unmarshalToDo [1] = none ∧
    (wire.todoAfterError [1]).ID = 1 ∧
    (GetToDosById wire 1 cutOffWorld).2.dbCalls = cutOffWorld.dbCalls + 1 ∧
    (GetToDosById wire 1 cutOffWorld).1 = ⟨200, .todo milk⟩ :=
  ⟨rfl, rfl, rfl, rfl, rfl,
    ((undecodable_entry wire cutOffWorld 1 [1] rfl rfl).2.1 rfl rfl).1,
    ((undecodable_entry wire cutOffWorld 1 [1] rfl rfl).2.1 rfl rfl).2.1 milk (by decide)
      (Or.inr rfl)⟩

theorem rdbGet_fault (key : Key) (w : World) (hf : w.rdbFaults.headD false = true) :
    rdbGet key w = (.err, { w with rdbFaults := w.rdbFaults.tail }) := by
  unfold rdbGet World.rdbCall
  rw [hf]

theorem rdbGet_nil (key : Key) (w : World) (hf : w.rdbFaults.headD false = false)
    (hk : w.rdb key = none) :
    rdbGet key w = (.redisNil, { w with rdbFaults := w.rdbFaults.tail }) := by
  unfold rdbGet World.rdbCall
  rw [hf]
  simp only
  rw [hk]

theorem rdbSet_dbCalls (key : Key) (data : Bytes) (w : World) :
    (rdbSet key data w).2.dbCalls = w.dbCalls := by
  unfold rdbSet World.rdbCall
  cases w.rdbFaults.headD false <;> rfl

theorem dbFindGroups_dbCalls (w : World) : (dbFindGroups w).2.dbCalls = w.dbCalls + 1 := by
  unfold dbFindGroups World.dbCall
  cases w.dbFaults.headD false <;> rfl

theorem dbFindToDos_dbCalls (w : World) : (dbFindToDos w).2.dbCalls = w.dbCalls + 1 := by
  unfold dbFindToDos World.dbCall
  cases w.dbFaults.headD false <;> rfl

theorem dbFirstGroupInto_dbCalls (group : Group) (id : Nat) (w : World) :
    (dbFirstGroupInto group id w).2.dbCalls = w.dbCalls + 1 := by
  unfold dbFirstGroupInto World.dbCall
  cases w.dbFaults.headD false
  · simp only
    cases w.db.groups.find? fun g => g.ID = id ∧ (group.ID = 0 ∨ g.ID = group.ID) <;> rfl
  · rfl

theorem dbFirstToDoInto_dbCalls (todo : ToDo) (id : Nat) (w : World) :
    (dbFirstToDoInto todo id w).2.dbCalls = w.dbCalls + 1 := by
  unfold dbFirstToDoInto World.dbCall
  cases w.dbFaults.headD false
  · simp only
    cases w.db.todos.find? fun t => t.ID = id ∧ (todo.ID = 0 ∨ t.ID = todo.ID) <;> rfl
  · rfl

theorem getGroupFromStore_dbCalls (J : Codec) (group : Group) (id : Nat) (w : World) :
    (GetGroupFromStore J group id w).2.dbCalls = w.dbCalls + 1 := by
  unfold GetGroupFromStore
  have h := dbFirstGroupInto_dbCalls group id w
  cases hq : dbFirstGroupInto group id w with
  | mk res w1 =>
    rw [hq] at h
    cases res with
    | error e => cases e <;> exact h
    | ok group =>
      simp only
      cases J.marshalGroup group with
      | none => exact h
      | some b => simp only; rw [rdbSet_dbCalls]; exact h

theorem getToDosByIdFromStore_dbCalls (J : Codec) (todo : ToDo) (id : Nat) (w : World) :
    (GetToDosByIdFromStore J todo id w).2.dbCalls = w.dbCalls + 1 := by
  unfold GetToDosByIdFromStore
  have h := dbFirstToDoInto_dbCalls todo id w
  cases hq : dbFirstToDoInto todo id w with
  | mk res w1 =>
    rw [hq] at h
    cases res with
    | error e => exact h
    | ok todo =>
      simp only
      cases J.marshalToDo todo with
      | none => exact h
      | some b =>
        simp only
        have h2 := rdbSet_dbCalls (.todo id) b w1
        cases hs : rdbSet (.todo id) b w1 with
        | mk f w2 =>
          rw [hs] at h2
          cases f <;> simp only <;> rw [h2] <;> exact h

/-- C9. For each of `GetGroups`, `GetGroup`, `GetToDos`, `GetToDosById`: when the cache lookup
fails with an error other than `redis.Nil`, the handler answers 500 with the Redis error,
issues no store call and leaves the store as it was; when the lookup succeeds and the key
is absent (`redis.Nil`), the handler does issue its one store call. -/
theorem cache_error_not_a_miss (J : Codec) (w : World) (id : Nat) :
    (w.rdbFaults.headD false = true →
      ((GetGroups J w).1 = ⟨500, .error "Redis error"⟩ ∧
        (GetGroups J w).2.dbCalls = w.dbCalls ∧ (GetGroups J w).2.db = w.db) ∧
      ((GetGroup J id w).1 = ⟨500, .error "Redis error"⟩ ∧
        (GetGroup J id w).2.dbCalls = w.dbCalls ∧ (GetGroup J id w).2.db = w.db) ∧
      ((GetToDos J w).1 = ⟨500, .error "Redis error"⟩ ∧
        (GetToDos J w).2.dbCalls = w.dbCalls ∧ (GetToDos J w).2.db = w.db) ∧
      ((GetToDosById J id w).1 = ⟨500, .error "Redis error"⟩ ∧
        (GetToDosById J id w).2.dbCalls = w.dbCalls ∧ (GetToDosById J id w).2.db = w.db)) ∧
    (w.rdbFaults.headD false = false →
      (w.rdb .groupsAll = none → (GetGroups J w).2.dbCalls = w.dbCalls + 1) ∧
      (w.rdb (.group id) = none → (GetGroup J id w).2.dbCalls = w.dbCalls + 1) ∧
      (w.rdb .todosAll = none → (GetToDos J w).2.dbCalls = w.dbCalls + 1) ∧
      (w.rdb (.todo id) = none → (GetToDosById J id w).2.dbCalls = w.dbCalls + 1)) := by
  refine ⟨?_, ?_⟩
  · intro hf
    refine ⟨?_, ?_, ?_, ?_⟩
    · unfold GetGroups; rw [rdbGet_fault _ _ hf]; exact ⟨rfl, rfl, rfl⟩
    · unfold GetGroup; rw [rdbGet_fault _ _ hf]; exact ⟨rfl, rfl, rfl⟩
    · unfold GetToDos; rw [rdbGet_fault _ _ hf]; exact ⟨rfl, rfl, rfl⟩
    · unfold GetToDosById; rw [rdbGet_fault _ _ hf]; exact ⟨rfl, rfl, rfl⟩
  · intro hf
    refine ⟨?_, ?_, ?_, ?_⟩
    · intro hk
      unfold GetGroups
      rw [rdbGet_nil _ _ hf hk]
      simp only
      have h := dbFindGroups_dbCalls { w with rdbFaults := w.rdbFaults.tail }
      cases hq : dbFindGroups { w with rdbFaults := w.rdbFaults.tail } with
      | mk res w1 =>
        rw [hq] at h
        cases res with
        | error e => exact h
        | ok groups =>
          simp only
          cases J.marshalGroups groups with
          | none => exact h
          | some b => simp only; rw [rdbSet_dbCalls]; exact h
    · intro hk
      unfold GetGroup
      rw [rdbGet_nil _ _ hf hk]
      exact getGroupFromStore_dbCalls J _ id _
    · intro hk
      unfold GetToDos
      rw [rdbGet_nil _ _ hf hk]
      simp only
      have h := dbFindToDos_dbCalls { w with rdbFaults := w.rdbFaults.tail }
      cases hq : dbFindToDos { w with rdbFaults := w.rdbFaults.tail } with
      | mk res w1 =>
        rw [hq] at h
        cases res with
        | error e => exact h
        | ok todos =>
          simp only
          cases J.marshalToDos todos with
          | none => exact h
          | some b =>
            simp only
            have h2 := rdbSet_dbCalls .todosAll b w1
            cases hs : rdbSet .todosAll b w1 with
            | mk f w2 =>
              rw [hs] at h2
              cases f <;> simp only <;> rw [h2] <;> exact h
    · intro hk
      unfold GetToDosById
      rw [rdbGet_nil _ _ hf hk]
      exact getToDosByIdFromStore_dbCalls J _ id _

/-- C9, at a concrete world whose next cache call fails: `GetGroups` answers 500 without a
store call. -/
theorem cache_error_not_a_miss_witness :
    brokenCacheWorld.rdbFaults.headD false = true ∧
    (GetGroups wire brokenCacheWorld).1 = ⟨500, .error "Redis error"⟩ ∧
    (GetGroups wire brokenCacheWorld).2.dbCalls = brokenCacheWorld.dbCalls ∧
    (GetGroups wire brokenCacheWorld).2.db = brokenCacheWorld.db :=
  ⟨rfl, ((cache_error_not_a_miss wire brokenCacheWorld 1).1 rfl).1⟩

theorem dbDeleteToDo_ok (todo : ToDo) (w : World) (h : w.dbFaults = [])
    (hid : todo.ID ≠ 0) :
    dbDeleteToDo todo w =
      { w with db := { w.db with todos := w.db.todos.filter fun t => ¬ t.ID = todo.ID },
               dbCalls := w.dbCalls + 1 } := by
  unfold dbDeleteToDo
  rw [w.dbCall_ok h]
  simp only [hid, if_false]

theorem dbDeleteGroup_ok (group : Group) (w : World) (h : w.dbFaults = [])
    (hid : group.ID ≠ 0) :
    dbDeleteGroup group w =
      { w with db := { w.db with groups := w.db.groups.filter fun g => ¬ g.ID = group.ID },
               dbCalls := w.dbCalls + 1 } := by
  unfold dbDeleteGroup
  rw [w.dbCall_ok h]
  simp only [hid, if_false]

/-- The loop of `DeleteGroup` on a working store. -/
theorem deleteToDos_ok (l : List ToDo) (hl : ∀ t ∈ l, t.ID ≠ 0) :
    ∀ w : World, w.dbFaults = [] →
    (l.foldl (fun w todo => dbDeleteToDo todo w) w).db.todos =
        w.db.todos.filter (fun t => t.ID ∉ l.map ToDo.ID) ∧
      (l.foldl (fun w todo => dbDeleteToDo todo w) w).db.groups = w.db.groups ∧
      (l.foldl (fun w todo => dbDeleteToDo todo w) w).rdb = w.rdb ∧
      (l.foldl (fun w todo => dbDeleteToDo todo w) w).rdbFaults = w.rdbFaults ∧
      (l.foldl (fun w todo => dbDeleteToDo todo w) w).dbFaults = [] := by
  induction l with
  | nil => intro w h; simp [h]
  | cons a l ih =>
    intro w h
    simp only [List.foldl_cons]
    rw [dbDeleteToDo_ok a w h (hl a (List.mem_cons_self a l))]
    obtain ⟨h1, h2, h3, h4, h5⟩ := ih (fun t ht => hl t (List.mem_cons_of_mem a ht))
      { w with db := { w.db with todos := w.db.todos.filter fun t => ¬ t.ID = a.ID },
               dbCalls := w.dbCalls + 1 } h
    refine ⟨?_, h2, h3, h4, h5⟩
    rw [h1]
    simp only [List.filter_filter]
    apply List.filter_congr
    intro t _
    rw [Bool.eq_iff_iff]
    simp only [Bool.and_eq_true, decide_eq_true_eq, List.map_cons, List.mem_cons, not_or]
    tauto

/-- With unique primary keys, the items whose key is among those of group `g` are the
items of group `g`. -/
theorem filter_by_keys (todos : List ToDo) (g : Nat) (hpk : (todos.map ToDo.ID).Nodup) :
    todos.filter (fun t => t.ID ∉ (todos.filter fun t => t.GroupID = g).map ToDo.ID) =
      todos.filter (fun t => ¬ t.GroupID = g) := by
  apply List.filter_congr
  intro t ht
  rw [Bool.eq_iff_iff]
  simp only [decide_eq_true_eq, List.mem_map, List.mem_filter, not_exists, not_and]
  constructor
  · intro h hg
    exact h t ⟨ht, hg⟩ rfl
  · intro hg u hu hid
    have hut : u = t := by
      have hinj := List.inj_on_of_nodup_map hpk
      exact hinj hu.1 ht hid
    rw [hut] at hu
    exact hg hu.2

theorem find_group (groups : List GroupRow) (g : Nat) (hex : ∃ x ∈ groups, x.ID = g) :
    ∃ row, (groups.find? fun x => x.ID = g) = some row ∧ row.ID = g ∧ row ∈ groups := by
  cases hf : groups.find? fun x => x.ID = g with
  | none =>
    obtain ⟨x, hx, hxg⟩ := hex
    have := List.find?_eq_none.mp hf x hx
    simp [hxg] at this
  | some row =>
    have := List.find?_some hf
    exact ⟨row, rfl, by simpa using this, List.mem_of_find?_eq_some hf⟩

/-- C10. For every store with unique non-zero primary keys that holds a group with id `g`, and
working store and cache: `DeleteGroup g` answers 200, leaves exactly the groups whose id is
not `g` and exactly the items whose `group_id` is not `g`, each unchanged and in place, so
that no group `g` and no item of group `g` remains, and leaves the cache without
`groups:all` and without `todos:all`. -/
theorem delete_group_cascades (w : World) (g : Nat) (hd : w.dbFaults = [])
    (hc : w.rdbFaults = []) (hpk : w.db.Keyed) (hex : ∃ x ∈ w.db.groups, x.ID = g) :
    (DeleteGroup g w).1 = ⟨200, .message "Group and associated ToDos deleted"⟩ ∧
    (DeleteGroup g w).2.db.groups = w.db.groups.filter (fun x => ¬ x.ID = g) ∧
    (DeleteGroup g w).2.db.todos = w.db.todos.filter (fun t => ¬ t.GroupID = g) ∧
    (∀ x ∈ (DeleteGroup g w).2.db.groups, x.ID ≠ g) ∧
    (∀ t ∈ (DeleteGroup g w).2.db.todos, t.GroupID ≠ g) ∧
    (DeleteGroup g w).2.rdb .groupsAll = none ∧
    (DeleteGroup g w).2.rdb .todosAll = none := by
  obtain ⟨row, hrow, hid, hmem⟩ := find_group w.db.groups g hex
  have hg0 : g ≠ 0 := hid ▸ hpk.groupsPos row hmem
  have hl0 : ∀ t ∈ (w.db.preload row).ToDos, t.ID ≠ 0 := by
    intro t ht
    exact hpk.todosPos t (List.mem_of_mem_filter ht)
  have hfirst : dbFirstGroup g w =
      (.ok (w.db.preload row), { w with dbCalls := w.dbCalls + 1 }) := by
    unfold dbFirstGroup
    rw [w.dbCall_ok hd]
    simp only [hrow]
  obtain ⟨h1, h2, h3, h4, h5⟩ := deleteToDos_ok (w.db.preload row).ToDos hl0
    { w with dbCalls := w.dbCalls + 1 } hd
  have hres : (DeleteGroup g w).1 = ⟨200, .message "Group and associated ToDos deleted"⟩ ∧
      (DeleteGroup g w).2.db.groups = w.db.groups.filter (fun x => ¬ x.ID = g) ∧
      (DeleteGroup g w).2.db.todos = w.db.todos.filter (fun t => ¬ t.GroupID = g) ∧
      (DeleteGroup g w).2.rdb .groupsAll = none ∧
      (DeleteGroup g w).2.rdb .todosAll = none := by
    unfold DeleteGroup
    rw [hfirst]
    simp only
    rw [dbDeleteGroup_ok _ _ h5 (by simpa [Store.preload, hid] using hg0)]
    rw [rdbDel_ok .groupsAll _ (by simpa using h4.trans hc)]
    rw [rdbDel_ok .todosAll _ (by simpa using h4.trans hc)]
    refine ⟨trivial, ?_, ?_, ?_, ?_⟩
    · simp only [h2]
      simp [Store.preload, hid]
    · simp only [h1]
      have := filter_by_keys w.db.todos g hpk.todosNodup
      simpa [Store.preload, hid] using this
    · simp
    · simp
  obtain ⟨r1, r2, r3, r4, r5⟩ := hres
  refine ⟨r1, r2, r3, ?_, ?_, r4, r5⟩
  · intro x hx
    rw [r2] at hx
    simpa using (List.mem_filter.mp hx).2
  · intro t ht
    rw [r3] at ht
    simpa using (List.mem_filter.mp ht).2

/-- C10, at a concrete world: deleting group 1 of two groups with one item each. -/
theorem delete_group_cascades_witness :
    homeWorld.dbFaults = [] ∧ homeWorld.rdbFaults = [] ∧
    homeWorld.db.Keyed ∧ (∃ x ∈ homeWorld.db.groups, x.ID = 1) ∧
    (DeleteGroup 1 homeWorld).2.db.groups = [work] ∧
    (DeleteGroup 1 homeWorld).2.db.todos = [report] ∧
    (DeleteGroup 1 homeWorld).2.rdb .groupsAll = none ∧
    (DeleteGroup 1 homeWorld).2.rdb .todosAll = none :=
  have hk : homeWorld.db.Keyed := ⟨by decide, by decide, by decide, by decide⟩
  have h := delete_group_cascades homeWorld 1 rfl rfl hk ⟨home, by decide, rfl⟩
  ⟨rfl, rfl, hk, ⟨home, by decide, rfl⟩, h.2.1.trans (by decide),
    h.2.2.1.trans (by decide), h.2.2.2.2.2.1, h.2.2.2.2.2.2⟩

/-! ## Theorems: the writing handlers and the token slice -/

/-- C11. For every store and cache content, every script of faults and every item payload whose
`group_id` is the id of no group of the store, `CreateToDo` answers 400 (`GroupID does not
exist`) and writes nothing: the store and the cache are exactly as before the call, and no
cache call was made. -/
theorem createToDo_unknown_group (now seq : Nat) (todo : ToDo) (w : World)
    (h : ∀ g ∈ w.db.groups, g.ID ≠ todo.GroupID) :
    (CreateToDo now seq (some todo) w).1 = ⟨400, .error "GroupID does not exist"⟩ ∧
    (CreateToDo now seq (some todo) w).2.db = w.db ∧
    (CreateToDo now seq (some todo) w).2.rdb = w.rdb ∧
    (CreateToDo now seq (some todo) w).2.rdbFaults = w.rdbFaults := by
  have hfind : (w.db.groups.find? fun g => g.ID = todo.GroupID) = none := by
    rw [List.find?_eq_none]
    intro g hg
    simpa using h g hg
  unfold CreateToDo dbFirstGroupRow World.dbCall
  simp only
  cases w.dbFaults.headD false <;> simp [hfind]

/-- C11, at a concrete world: an item for group 7, which does not exist, is rejected with 400 and
the store is as before. -/
theorem createToDo_unknown_group_witness :
    (∀ g ∈ homeWorld.db.groups, g.ID ≠ orphan.GroupID) ∧
    (CreateToDo 99 3 (some orphan) homeWorld).1 = ⟨400, .error "GroupID does not exist"⟩ ∧
    (CreateToDo 99 3 (some orphan) homeWorld).2.db = homeWorld.db :=
  have h := createToDo_unknown_group 99 3 orphan homeWorld (by decide)
  ⟨by decide, h.1, h.2.1⟩

/-- C13, evaluated at a failing input. The store holds group 1 and item 1 and its next call fails
with an error other than record-not-found: `GetGroup` answers 500, but `GetToDosById`,
`UpdateGroup`, `DeleteGroup`, `UpdateToDo` and `DeleteToDo` answer 404 as if the record were
absent. -/
theorem lookup_failure_reported_as_404 :
    faultyStoreWorld.db = homeWorld.db ∧ faultyStoreWorld.dbFaults = [true] ∧
    (GetGroup wire 1 homeWorld).1.status = 200 ∧
    (GetGroup wire 1 faultyStoreWorld).1 = ⟨500, .error "Failed to retrieve group"⟩ ∧
    (GetToDosById wire 1 homeWorld).1.status = 200 ∧
    (GetToDosById wire 1 faultyStoreWorld).1 = ⟨404, .error "ToDo not found"⟩ ∧
    (UpdateGroup 1 (some (ascii "house")) faultyStoreWorld).1 =
      ⟨404, .error "Group not found"⟩ ∧
    (DeleteGroup 1 faultyStoreWorld).1 = ⟨404, .error "Group not found"⟩ ∧
    (UpdateToDo 99 3 1 (some retitle) faultyStoreWorld).1 = ⟨404, .error "ToDo not found"⟩ ∧
    (DeleteToDo 1 faultyStoreWorld).1 = ⟨404, .error "ToDo not found"⟩ := by
  decide

/-- C14, evaluated at failing inputs. The lookup succeeds and every later store call fails:
`CreateGroup` and `CreateToDo` answer 201, `DeleteGroup`, `UpdateToDo` and `DeleteToDo`
answer 200, and the store is as before. `GetToDosByDate` answers 200 with an empty list
although its query is rejected. -/
theorem failed_write_reported_as_success :
    failingWriteWorld.db = homeWorld.db ∧ failingWriteWorld.dbFaults = [false, true, true] ∧
    ((dbCreateGroup plainGorm 99 3 garden
        (dbFirstGroupByName garden.Name failingWriteWorld).2).1 = true ∧
      (CreateGroup plainGorm 99 3 (some garden) failingWriteWorld).1.status = 201 ∧
      (CreateGroup plainGorm 99 3 (some garden) failingWriteWorld).2.db = homeWorld.db) ∧
    ((DeleteGroup 1 failingWriteWorld).1.status = 200 ∧
      (DeleteGroup 1 failingWriteWorld).2.db = homeWorld.db) ∧
    ((CreateToDo 99 3 (some errand) failingWriteWorld).1.status = 201 ∧
      (CreateToDo 99 3 (some errand) failingWriteWorld).2.db = homeWorld.db) ∧
    ((UpdateToDo 99 3 1 (some retitle) failingWriteWorld).1.status = 200 ∧
      (UpdateToDo 99 3 1 (some retitle) failingWriteWorld).2.db = homeWorld.db) ∧
    ((DeleteToDo 1 failingWriteWorld).1.status = 200 ∧
      (DeleteToDo 1 failingWriteWorld).2.db = homeWorld.db) ∧
    ((dbFindToDosByDate (ascii "2024-05-01") homeWorld).1.toOption = none ∧
      (GetToDosByDate (ascii "2024-05-01") homeWorld).1 = ⟨200, .todos []⟩) := by
  decide

/-- The slice of a header that starts with the literal is the rest of the header. -/
theorem enterGate_bearer (token : Bytes) :
    enterGate (bearer ++ token) = { pc := .sending token, header := bearer ++ token } := by
  have h1 : bearer ++ token ≠ [] := by simp [bearer, ascii]
  have h2 : ¬ (bearer ++ token).length < bearer.length := by simp
  simp [enterGate, h1, h2]

/-- C15, evaluated at a failing input. The header `abc` is not empty and is shorter than the
literal `"Bearer "`: the slice on line 22 is out of range, the handler panics before writing
a response and nothing is published. For a header that does start with the literal the
token is the rest of the header. -/
theorem short_header_panics :
    shortHeader ≠ [] ∧ shortHeader.length < bearer.length ∧
    (enterGate shortHeader).panicked = true ∧
    (∃ s, run init [.request 1 shortHeader] = some s ∧ (s.gates 1).panicked = true ∧
      (s.gates 1).pc = .returned ∧ (s.gates 1).status = none ∧ s.topic = []) ∧
    (∀ token : Bytes,
      enterGate (bearer ++ token) = { pc := .sending token, header := bearer ++ token }) := by
  refine ⟨by decide, by decide, by decide, ⟨_, rfl, ?_, ?_, ?_, ?_⟩, enterGate_bearer⟩ <;>
    decide

theorem rdbDel_db (key : Key) (w : World) : (rdbDel key w).db = w.db := by
  unfold rdbDel World.rdbCall
  cases w.rdbFaults.headD false <;> rfl

theorem find_name_none {groups : List GroupRow} {name : Bytes}
    (h : (groups.find? fun g => g.Name = name) = none) :
    name ∉ groups.map GroupRow.Name := by
  rw [List.find?_eq_none] at h
  intro hmem
  obtain ⟨g, hg, hn⟩ := List.mem_map.mp hmem
  exact h g hg (by simpa using hn)

theorem find_name_some {groups : List GroupRow} {name : Bytes}
    (h : name ∈ groups.map GroupRow.Name) :
    ∃ g, (groups.find? fun g => g.Name = name) = some g := by
  cases hf : groups.find? fun g => g.Name = name with
  | none => exact absurd h (find_name_none hf)
  | some g => exact ⟨g, rfl⟩

/-- The groups after `db.Create(&group)`: as before, or one more row with the payload's
name. -/
theorem dbCreateGroup_groups (A : Gorm) (now seq : Nat) (group : Group) (w : World) :
    (dbCreateGroup A now seq group w).2.2.db.groups = w.db.groups ∨
    ∃ row : GroupRow, row.Name = group.Name ∧
      (dbCreateGroup A now seq group w).2.2.db.groups = w.db.groups ++ [row] := by
  unfold dbCreateGroup World.dbCall
  cases w.dbFaults.headD false
  · simp only
    by_cases hmem : (if group.ID = 0 then seq else group.ID) ∈ w.db.groups.map GroupRow.ID
    · rw [if_pos hmem]; exact Or.inl rfl
    · rw [if_neg hmem]; exact Or.inr ⟨_, rfl, rfl⟩
  · exact Or.inl rfl

/-- One `CreateGroup` call keeps the names of the groups pairwise distinct, whatever the
payload and whichever calls fail. -/
theorem createGroup_names (A : Gorm) (now seq : Nat) (body : Option Group) (w : World)
    (hw : w.db.NamesDistinct) : (CreateGroup A now seq body w).2.db.NamesDistinct := by
  unfold CreateGroup
  cases body with
  | none => exact hw
  | some group =>
    simp only
    unfold dbFirstGroupByName
    cases hd : w.dbCall with
    | mk f w1 =>
      have hdb : w1.db = w.db := by
        have := w.dbCall_rdb.2.2
        rw [hd] at this
        exact this
      cases f with
      | true => simp only; unfold Store.NamesDistinct; rw [hdb]; exact hw
      | false =>
        simp only
        cases hf : w1.db.groups.find? fun g => g.Name = group.Name with
        | some g => simp only; unfold Store.NamesDistinct; rw [hdb]; exact hw
        | none =>
          simp only
          unfold Store.NamesDistinct
          rw [rdbDel_db]
          have hn := find_name_none hf
          rcases dbCreateGroup_groups A now seq group w1 with h | ⟨row, hrow, h⟩
          · rw [h, hdb]; exact hw
          · rw [h, List.map_append, List.map_singleton, hrow]
            refine List.Nodup.append (by rw [hdb]; exact hw) (List.nodup_singleton _) ?_
            intro x hx hx1
            rw [List.mem_singleton] at hx1
            exact hn (hx1 ▸ hx)

theorem createGroups_names (A : Gorm) (calls : List (Nat × Nat × Option Group)) :
    ∀ w : World, w.db.NamesDistinct → (createGroups A calls w).db.NamesDistinct := by
  induction calls with
  | nil => intro w hw; exact hw
  | cons c calls ih =>
    intro w hw
    obtain ⟨now, seq, body⟩ := c
    exact ih _ (createGroup_names A now seq body w hw)

/-- C12, counterexample. On a working store with the distinct names `home` (id 1) and `work`
(id 2), the payload with the new name `garden` and id 1 is answered 201 although the insert
is rejected (the key is taken) and no group was added; the same happens with a blank id
when the insert fails; and a payload with the present name `home` is answered 500, not 409,
when the name lookup fails. -/
theorem createGroup_adds_nothing :
    homeWorld.db.NamesDistinct ∧ homeWorld.dbFaults = [] ∧ homeWorld.rdbFaults = [] ∧
    gardenAsOne.Name ∉ homeWorld.db.groups.map GroupRow.Name ∧
    (CreateGroup plainGorm 99 3 (some gardenAsOne) homeWorld).1.status = 201 ∧
    (CreateGroup plainGorm 99 3 (some gardenAsOne) homeWorld).2.db.groups =
      homeWorld.db.groups ∧
    (CreateGroup plainGorm 99 3 (some garden) failingWriteWorld).1.status = 201 ∧
    (CreateGroup plainGorm 99 3 (some garden) failingWriteWorld).2.db.groups =
      homeWorld.db.groups ∧
    (CreateGroup plainGorm 99 3 (some home.toGroup) faultyStoreWorld).1.status = 500 := by
  refine ⟨?_, ?_, ?_, ?_, ?_, ?_, ?_, ?_, ?_⟩ <;> decide

/-- C12, as amended. For every store whose group names are pairwise distinct: on a working
store, `CreateGroup` with a name already present answers 409 and leaves the store and the
cache unchanged; on a working store, `CreateGroup` with a name not present and a primary
key (the payload's, or the sequence's when the payload's is blank) that is not taken answers
201 and adds exactly one group, with that name; and after any sequence of `CreateGroup`
calls, whatever the payloads and whichever store or cache calls fail, the group names are
still pairwise distinct. -/
theorem createGroup_keeps_names_distinct (A : Gorm) (w : World)
    (hw : w.db.NamesDistinct) :
    (∀ now seq group, w.dbFaults = [] → group.Name ∈ w.db.groups.map GroupRow.Name →
      (CreateGroup A now seq (some group) w).1 =
          ⟨409, .error "Group with this name already exists"⟩ ∧
        (CreateGroup A now seq (some group) w).2.db = w.db ∧
        (CreateGroup A now seq (some group) w).2.rdb = w.rdb) ∧
    (∀ now seq group, w.dbFaults = [] → group.Name ∉ w.db.groups.map GroupRow.Name →
      (if group.ID = 0 then seq else group.ID) ∉ w.db.groups.map GroupRow.ID →
      (CreateGroup A now seq (some group) w).1.status = 201 ∧
        (CreateGroup A now seq (some group) w).2.db.groups = w.db.groups ++
          [{ ID := if group.ID = 0 then seq else group.ID, Name := group.Name,
             CreatedAt := now }]) ∧
    (∀ calls, (createGroups A calls w).db.NamesDistinct) := by
  refine ⟨?_, ?_, fun calls => createGroups_names A calls w hw⟩
  · intro now seq group hd hn
    obtain ⟨g, hg⟩ := find_name_some hn
    unfold CreateGroup dbFirstGroupByName
    rw [w.dbCall_ok hd]
    simp [hg]
  · intro now seq group hd hn hid
    have hf : (w.db.groups.find? fun g => g.Name = group.Name) = none := by
      rw [List.find?_eq_none]
      intro g hg hname
      exact hn (List.mem_map.mpr ⟨g, hg, by simpa using hname⟩)
    unfold CreateGroup dbFirstGroupByName
    rw [w.dbCall_ok hd]
    simp only [hf]
    refine ⟨by simp, ?_⟩
    rw [rdbDel_db]
    unfold dbCreateGroup
    rw [World.dbCall_ok { w with dbCalls := w.dbCalls + 1 } hd]
    simp only
    rw [if_neg hid]

/-- C12 as amended, at a concrete world: creating `garden` adds one row, and creating it twice
keeps the names distinct. -/
theorem createGroup_keeps_names_distinct_witness :
    homeWorld.db.NamesDistinct ∧ homeWorld.dbFaults = [] ∧
    garden.Name ∉ homeWorld.db.groups.map GroupRow.Name ∧
    (CreateGroup plainGorm 99 3 (some garden) homeWorld).1.status = 201 ∧
    (CreateGroup plainGorm 99 3 (some garden) homeWorld).2.db.groups =
      [home, work, { ID := 3, Name := ascii "garden", CreatedAt := 99 }] ∧
    (createGroups plainGorm [(99, 3, some garden), (100, 4, some garden)]
      homeWorld).db.NamesDistinct :=
  have hw : homeWorld.db.NamesDistinct := by decide
  have h := createGroup_keeps_names_distinct plainGorm homeWorld hw
  ⟨hw, rfl, by decide, (h.2.1 99 3 garden rfl (by decide) (by decide)).1,
    (h.2.1 99 3 garden rfl (by decide) (by decide)).2, h.2.2 _⟩

end TodoService
